import Mathlib

/-!
# Graph API reliability harness: embedding and verified properties

The development embeds the two Go files of the repository:

* `client.go`: `newAzureProvider`, `getAuthorizer` and the three provider operations
  `GetApplication`, `AddApplicationPassword`, `RemoveApplicationPassword`, each a
  prepare / send / respond pipeline whose failures are passed through
  `autorest.NewErrorWithError`;
* `client_test.go`: `TestGraphAPIReliability`, from the fan-out of line 75 on: the
  spawning loop, the body of each goroutine, `wg.Wait`, the settling sleep, the second
  `GetApplication` and the membership assertions.

Sequential code is embedded as functions.  The fan-out is embedded as a step function
`step` on a `State`, one atomic action of one thread per step; an execution is a
schedule (a list of thread identifiers) run by `run`.  Safety properties are proved for
every schedule from the invariant `Inv`; that runs end, and reach the return of `wg.Wait`
when no print panics, is proved from the step bound `fuel` and the invariant `NoPanic`.
Calls into libraries that are not part of the repository (the HTTP pipeline,
`strconv.Atoi`, `os.LookupEnv`, the authorizer factories) are parameters of the
embedding.
-/

namespace GraphReliability

/-! ## Data model -/

/-- Go `error` values.  `detailed` is the shape of `autorest.DetailedError`: the original
error together with package type, method, status code and message. -/
inductive GoError where
  | plain (msg : String)
  | detailed (original : GoError) (packageType method : String) (statusCode : Int)
      (message : String)
  deriving DecidableEq, Repr

/-- The part of `*http.Response` the program looks at: status code and the header map
(`map[string][]string`, here an association list read by first match). -/
structure HTTPResponse where
  StatusCode : Int
  Header : List (String × List String)
  deriving DecidableEq, Repr

/-- The struct `passwordCredential` of `client.go`: three optional strings (`*string`). -/
structure passwordCredential where
  DisplayName : Option String
  EndDateTime : Option String
  KeyID : Option String
  deriving DecidableEq, Repr

/-- The struct `PasswordCredentialResult`: the embedded `autorest.Response` (a possibly nil
`*http.Response`) and the embedded `passwordCredential`. -/
structure PasswordCredentialResult where
  Response : Option HTTPResponse
  cred : passwordCredential
  deriving DecidableEq, Repr

/-- The struct `ApplicationResult`: response, `Id`, and `PasswordCredentials`, a slice of pointers
(`[]*passwordCredential`), so an entry may be nil (`none`). -/
structure ApplicationResult where
  Response : Option HTTPResponse
  Id : Option String
  PasswordCredentials : List (Option passwordCredential)
  deriving DecidableEq, Repr

/-- The function `to.String` of go-autorest: the pointed-to string, or the empty string for nil. -/
def to.String (s : Option String) : String :=
  match s with
  | some v => v
  | none => ""

/-! ## The test object and the assertions of `client_test.go` -/

/-- One failure recorded on the test object: by `require.NoError` (the error and the
message) or by `assert.Contains` (the list, the element looked for, the message). -/
inductive Report where
  | noError (err : GoError) (msg : String)
  | notContains (list : List String) (element : String) (msg : String)
  deriving DecidableEq, Repr

/-- The `*testing.T` as the test uses it: the failed flag and the recorded failures in
the order they were recorded. -/
structure T where
  failed : Bool
  reports : List Report
  deriving DecidableEq, Repr

/-- The method `t.Errorf`: record a failure and mark the test failed; execution continues. -/
def T.Errorf (t : T) (r : Report) : T :=
  { failed := true, reports := t.reports ++ [r] }

/-- The element search of `assert.Contains` on a slice: walk the slice and compare each
entry with the element. -/
def containsElement : List String → String → Bool
  | [], _ => false
  | x :: rest, element => if x = element then true else containsElement rest element

/-- The call `assert.Contains(t, s, contains, msg)`: on a miss record the failure; return whether
the element was found.  The test is not stopped. -/
def assertContains (t : T) (s : List String) (contains : String) (msg : String) : T × Bool :=
  if containsElement s contains then (t, true)
  else (t.Errorf (Report.notContains s contains msg), false)

/-- The call `require.NoError(t, err, msg)`: with a nil error nothing happens (`true`); otherwise
the failure is recorded and `t.FailNow()` is called (`false`): the calling goroutine is
the one that stops. -/
def requireNoError (t : T) (err : Option GoError) (msg : String) : T × Bool :=
  match err with
  | none => (t, true)
  | some e => (t.Errorf (Report.noError e msg), false)

/-- Lines 105-109: collect `to.String(cred.KeyID)` for each entry of
`result.PasswordCredentials`, appending in order to `foundKeyIds`.  A nil entry makes
`cred.KeyID` a nil pointer dereference (`none`). -/
def collectFoundKeyIds : List (Option passwordCredential) → List String → Option (List String)
  | [], foundKeyIds => some foundKeyIds
  | none :: _, _ => none
  | some cred :: rest, foundKeyIds =>
      collectFoundKeyIds rest (foundKeyIds ++ [to.String cred.KeyID])

/-- The message of the membership assertion, line 113. -/
def notPersistedMsg : String := "key was created but not seemingly not persisted"

/-- Lines 112-114: for each created key identifier, `assert.Contains` on `foundKeyIds`;
the boolean result is discarded and the loop always goes on to the next identifier. -/
def verifyLoop (foundKeyIds : List String) : T → List String → T
  | t, [] => t
  | t, createdKeyId :: rest =>
      verifyLoop foundKeyIds (assertContains t foundKeyIds createdKeyId notPersistedMsg).1 rest

/-! ## `client.go`: provider construction -/

/-- The field of `azure.Environment` that `getAuthorizer` reads. -/
structure AzureEnvironment where
  ActiveDirectoryEndpoint : String
  deriving DecidableEq, Repr

/-- The struct `clientSettings` of `client.go`. -/
structure clientSettings where
  SubscriptionID : String
  TenantID : String
  ClientID : String
  ClientSecret : String
  Environment : AzureEnvironment
  deriving DecidableEq, Repr

/-- The struct `MSGraphApplicationClient`: the fields of the embedded `authorization.BaseClient`
that the repository reads or writes.  `Auth` is the type of authorizers. -/
structure MSGraphApplicationClient (Auth : Type) where
  BaseURI : String
  SubscriptionID : String
  Authorizer : Option Auth
  UserAgent : String
  RetryAttempts : Int

/-- The `provider` struct of `client.go`. -/
structure provider (Auth : Type) where
  settings : clientSettings
  msGraphAppClient : MSGraphApplicationClient Auth

/-- The library calls `newAzureProvider` and `getAuthorizer` depend on; none of them is
code of the repository, so each is a parameter:
`auth.NewClientCredentialsConfig(..).Authorizer()` (client id, secret, tenant, AAD
endpoint, resource), `auth.NewMSIConfig().Authorizer()` (resource),
`authorization.NewWithBaseURI`, `os.LookupEnv` and `strconv.Atoi`. -/
structure Library (Auth : Type) where
  clientCredentialsAuthorizer :
    String → String → String → String → String → Option Auth × Option GoError
  msiAuthorizer : String → Option Auth × Option GoError
  NewWithBaseURI : String → String → MSGraphApplicationClient Auth
  LookupEnv : String → Option String
  Atoi : String → Int × Option GoError

/-- The constant `defaultBaseUri`. -/
def defaultBaseUri : String := "https://graph.microsoft.com"

/-- The function `getAuthorizer`: client-credentials configuration when client id, secret and tenant
are all non-empty, managed identity otherwise; an error gives a nil authorizer. -/
def getAuthorizer {Auth : Type} (lib : Library Auth) (settings : clientSettings)
    (resource : String) : Option Auth × Option GoError :=
  if settings.ClientID ≠ "" ∧ settings.ClientSecret ≠ "" ∧ settings.TenantID ≠ "" then
    match lib.clientCredentialsAuthorizer settings.ClientID settings.ClientSecret
        settings.TenantID settings.Environment.ActiveDirectoryEndpoint resource with
    | (_, some err) => (none, some err)
    | (authorizer, none) => (authorizer, none)
  else
    match lib.msiAuthorizer resource with
    | (_, some err) => (none, some err)
    | (authorizer, none) => (authorizer, none)

/-- The function `newMSGraphApplicationClient`: the base client for `defaultBaseUri`. -/
def newMSGraphApplicationClient {Auth : Type} (lib : Library Auth) (subscriptionId : String) :
    MSGraphApplicationClient Auth :=
  lib.NewWithBaseURI defaultBaseUri subscriptionId

/-- The method `AddToUserAgent` of the autorest client: a non-empty extension is appended to the
user agent after a blank; the error for an empty extension is ignored by the caller. -/
def MSGraphApplicationClient.AddToUserAgent {Auth : Type} (c : MSGraphApplicationClient Auth)
    (extension : String) : MSGraphApplicationClient Auth :=
  if extension ≠ "" then { c with UserAgent := c.UserAgent ++ " " ++ extension } else c

/-- The function `newAzureProvider`: returns `(provider, nil)` or `(nil, err)`. -/
def newAzureProvider {Auth : Type} (lib : Library Auth) (settings : clientSettings) :
    Option (provider Auth) × Option GoError :=
  match getAuthorizer lib settings "https://graph.microsoft.com" with
  | (_, some err) => (none, some err)
  | (graphMicrsoftComAuthorizer, none) =>
    let msGraphAppClient := newMSGraphApplicationClient lib settings.SubscriptionID
    let msGraphAppClient := { msGraphAppClient with Authorizer := graphMicrsoftComAuthorizer }
    let msGraphAppClient :=
      msGraphAppClient.AddToUserAgent "go-autorest; mdgreenfield/ms-graph-testing"
    match lib.LookupEnv "RETRY_ATTEMPTS" with
    | some retryAttempts =>
      match lib.Atoi retryAttempts with
      | (_, some err) => (none, some err)
      | (ra, none) =>
        (some { settings := settings,
                msGraphAppClient := { msGraphAppClient with RetryAttempts := ra } }, none)
    | none => (some { settings := settings, msGraphAppClient := msGraphAppClient }, none)

/-! ## `client.go`: the three operations -/

/-- The request pipeline of go-autorest as the operations use it; `Req` is the type of
prepared requests.  Each preparer, sender and responder of `client.go` is a chain of
library decorators, so its outcome is a parameter: a preparer maps the call arguments to
`(request, error)`, a sender maps the request to `(response, error)`, and the respond
step maps the response to the decoded body and an error.  `NewErrorWithError` is
`autorest.NewErrorWithError` (original error, package type, method, response,
message). -/
structure Pipeline (Req : Type) where
  getApplicationPreparer : String → Option Req × Option GoError
  getApplicationSender : Option Req → Option HTTPResponse × Option GoError
  getApplicationRespond :
    Option HTTPResponse → (Option String × List (Option passwordCredential)) × Option GoError
  addPasswordPreparer : String → String → Int → Option Req × Option GoError
  addPasswordSender : Option Req → Option HTTPResponse × Option GoError
  addPasswordRespond : Option HTTPResponse → passwordCredential × Option GoError
  removePasswordPreparer : String → String → Option Req × Option GoError
  removePasswordSender : Option Req → Option HTTPResponse × Option GoError
  removePasswordRespond : Option HTTPResponse → Option GoError
  NewErrorWithError : GoError → String → String → Option HTTPResponse → String → GoError

/-- The method `getApplicationResponder`: run the respond chain, then store the response in the
result. -/
def getApplicationResponder {Req : Type} (p : Pipeline Req) (resp : Option HTTPResponse) :
    ApplicationResult × Option GoError :=
  let (body, err) := p.getApplicationRespond resp
  ({ Response := resp, Id := body.1, PasswordCredentials := body.2 }, err)

/-- The method `addPasswordResponder`: run the respond chain, then store the response in the
result. -/
def addPasswordResponder {Req : Type} (p : Pipeline Req) (resp : Option HTTPResponse) :
    PasswordCredentialResult × Option GoError :=
  let (body, err) := p.addPasswordRespond resp
  ({ Response := resp, cred := body }, err)

/-- The method `removePasswordResponder`: the result is the response itself. -/
def removePasswordResponder {Req : Type} (p : Pipeline Req) (resp : Option HTTPResponse) :
    Option HTTPResponse × Option GoError :=
  (resp, p.removePasswordRespond resp)

/-- The zero value of `ApplicationResult`. -/
def zeroApplicationResult : ApplicationResult :=
  { Response := none, Id := none, PasswordCredentials := [] }

/-- The zero value of `PasswordCredentialResult`. -/
def zeroPasswordCredentialResult : PasswordCredentialResult :=
  { Response := none, cred := { DisplayName := none, EndDateTime := none, KeyID := none } }

/-- The method `provider.GetApplication`. -/
def GetApplication {Req : Type} (p : Pipeline Req) (applicationObjectID : String) :
    ApplicationResult × Option GoError :=
  match p.getApplicationPreparer applicationObjectID with
  | (_, some err) =>
    (zeroApplicationResult,
      some (p.NewErrorWithError err "provider" "GetApplication" none
        "Failure preparing request"))
  | (req, none) =>
    match p.getApplicationSender req with
    | (resp, some err) =>
      ({ zeroApplicationResult with Response := resp },
        some (p.NewErrorWithError err "provider" "GetApplication" resp
          "Failure sending request"))
    | (resp, none) =>
      match getApplicationResponder p resp with
      | (result, some err) =>
        (result, some (p.NewErrorWithError err "provider" "GetApplication" resp
          "Failure responding to request"))
      | (result, none) => (result, none)

/-- The method `provider.AddApplicationPassword`; `endDateTime` is the expiry instant. -/
def AddApplicationPassword {Req : Type} (p : Pipeline Req) (applicationObjectID : String)
    (displayName : String) (endDateTime : Int) : PasswordCredentialResult × Option GoError :=
  match p.addPasswordPreparer applicationObjectID displayName endDateTime with
  | (_, some err) =>
    (zeroPasswordCredentialResult,
      some (p.NewErrorWithError err "provider" "AddApplicationPassword" none
        "Failure preparing request"))
  | (req, none) =>
    match p.addPasswordSender req with
    | (resp, some err) =>
      ({ zeroPasswordCredentialResult with Response := resp },
        some (p.NewErrorWithError err "provider" "AddApplicationPassword" resp
          "Failure sending request"))
    | (resp, none) =>
      match addPasswordResponder p resp with
      | (result, some err) =>
        (result, some (p.NewErrorWithError err "provider" "AddApplicationPassword" resp
          "Failure responding to request"))
      | (result, none) => (result, none)

/-- The method `provider.RemoveApplicationPassword`. -/
def RemoveApplicationPassword {Req : Type} (p : Pipeline Req) (applicationObjectID : String)
    (keyID : String) : Option HTTPResponse × Option GoError :=
  match p.removePasswordPreparer applicationObjectID keyID with
  | (_, some err) =>
    (none, some (p.NewErrorWithError err "provider" "RemoveApplicationPassword" none
      "Failure preparing request"))
  | (req, none) =>
    match p.removePasswordSender req with
    | (resp, some err) =>
      (resp, some (p.NewErrorWithError err "provider" "RemoveApplicationPassword" resp
        "Failure sending request"))
    | (resp, none) =>
      match removePasswordResponder p resp with
      | (result, some err) =>
        (result, some (p.NewErrorWithError err "provider" "RemoveApplicationPassword" resp
          "Failure responding to request"))
      | (result, none) => (result, none)

/-- The behaviour of `autorest.NewErrorWithError` in go-autorest: an original that is
already a detailed error is returned as it is; any other original is wrapped in a
detailed error carrying the package type, the method, the status code of the response
(0, the undefined status code, for a nil response) and the message. -/
def autorestNewErrorWithError (original : GoError) (packageType method : String)
    (resp : Option HTTPResponse) (message : String) : GoError :=
  match original with
  | GoError.detailed _ _ _ _ _ => original
  | GoError.plain _ =>
    GoError.detailed original packageType method
      (match resp with
       | some r => r.StatusCode
       | none => 0)
      message

/-! ## `client_test.go`: the fan-out as a transition system -/

/-- Run-time failures that terminate the process. -/
inductive Panic where
  | indexOutOfRange
  | nilDereference
  | negativeWaitGroupCounter
  | unlockOfUnlockedMutex
  deriving DecidableEq, Repr

/-- Reading a header map at a key: the stored values, or the nil slice when the key is
absent. -/
def headerLookup : List (String × List String) → String → List String
  | [], _ => []
  | (k, v) :: rest, key => if k = key then v else headerLookup rest key

/-- The expression `resp.Header[key][0]`: a nil response is a nil dereference, an empty or
absent value list is an index out of range. -/
def headerFirst (resp : PasswordCredentialResult) (key : String) : Except Panic String :=
  match resp.Response with
  | none => Except.error Panic.nilDereference
  | some r =>
    match headerLookup r.Header key with
    | [] => Except.error Panic.indexOutOfRange
    | v :: _ => Except.ok v

/-- The header arguments of the `fmt.Sprintf` of line 94, evaluated left to right. -/
def printlnArgs (resp : PasswordCredentialResult) : Except Panic (String × String) :=
  match headerFirst resp "Request-Id" with
  | Except.error p => Except.error p
  | Except.ok requestId =>
    match headerFirst resp "Date" with
    | Except.error p => Except.error p
    | Except.ok date => Except.ok (requestId, date)

/-- Program points of one goroutine (lines 81-95).  The deferred calls carry the panic
in flight, if any: deferred functions run both on return and while panicking. -/
inductive GPc where
  /-- Line 85: about to call `provider.AddApplicationPassword`. -/
  | callAdd
  /-- Line 86: `require.NoError` on the error of the call. -/
  | requireNoErr
  /-- Line 88: `mutex.Lock()`. -/
  | lock
  /-- Lines 91-92: read the slice `keyIds`. -/
  | readKeyIds
  /-- Line 92: store the slice read earlier, extended by the key identifier. -/
  | writeKeyIds (old : List String)
  /-- Line 94: the print with the two header lookups. -/
  | println
  /-- Deferred `mutex.Unlock()`. -/
  | deferUnlock (panicking : Option Panic)
  /-- Deferred `wg.Done()`. -/
  | deferDone (panicking : Option Panic)
  /-- All deferred calls ran while panicking: the process is about to terminate. -/
  | crash (p : Panic)
  /-- The goroutine has ended. -/
  | exited
  deriving DecidableEq, Repr

/-- Program points of the test goroutine from line 79 on. -/
inductive MainPc where
  /-- Line 79: loop test; when it holds, `wg.Add(1)` of line 80. -/
  | loopHead (i : Nat)
  /-- Line 81: the `go` statement of iteration `i`. -/
  | goStmt (i : Nat)
  /-- Line 97: `wg.Wait()`. -/
  | wait
  /-- Line 100: the settling sleep. -/
  | sleep
  /-- Lines 102-103: second `GetApplication` and `require.NoError`. -/
  | getApp
  /-- Lines 105-109: collecting `foundKeyIds`. -/
  | collect
  /-- Lines 112-114: the membership assertions. -/
  | verify (foundKeyIds : List String)
  /-- The test function returned. -/
  | done
  /-- The test goroutine stopped in `t.FailNow()`. -/
  | aborted
  deriving DecidableEq, Repr

/-- Observable actions, in the order they happen. -/
inductive Event where
  | addReturned (i : Nat)
  | settleSleep
  | secondGetApplication
  | membershipAssertions
  deriving DecidableEq, Repr

/-- Threads: the test goroutine and the spawned goroutines by spawn order. -/
inductive Tid where
  | main
  | go (i : Nat)
  deriving DecidableEq, Repr

/-- What the run depends on from outside: `parallelRequests`, what the `i`-th goroutine
gets back from `provider.AddApplicationPassword`, and what the second
`provider.GetApplication` returns. -/
structure Env where
  parallelRequests : Int
  adds : Nat → PasswordCredentialResult × Option GoError
  secondRead : ApplicationResult × Option GoError

/-- The shared state: program points, the `sync.WaitGroup` counter, the `sync.Mutex`
(with the goroutine that locked it), the slice `keyIds`, the test object, the events so
far, and whether the process was terminated by a panic. -/
structure State where
  mainPc : MainPc
  gs : List GPc
  wg : Nat
  mutex : Option Nat
  keyIds : List String
  t : T
  events : List Event
  crashed : Option Panic
  deriving DecidableEq, Repr

/-- The state at line 75: nothing spawned, nothing failed. -/
def initState : State :=
  { mainPc := MainPc.loopHead 0, gs := [], wg := 0, mutex := none, keyIds := [],
    t := { failed := false, reports := [] }, events := [], crashed := none }

/-- One atomic action of goroutine `i`; `none` when it cannot move (not spawned, ended,
or blocked in `mutex.Lock`). -/
def stepGo (env : Env) (i : Nat) (s : State) : Option State :=
  match s.gs[i]? with
  | none => none
  | some GPc.callAdd =>
    some { s with gs := s.gs.set i GPc.requireNoErr,
                  events := s.events ++ [Event.addReturned i] }
  | some GPc.requireNoErr =>
    match requireNoError s.t (env.adds i).2 "error adding password" with
    | (t, true) => some { s with t := t, gs := s.gs.set i GPc.lock }
    | (t, false) => some { s with t := t, gs := s.gs.set i (GPc.deferDone none) }
  | some GPc.lock =>
    match s.mutex with
    | none => some { s with mutex := some i, gs := s.gs.set i GPc.readKeyIds }
    | some _ => none
  | some GPc.readKeyIds => some { s with gs := s.gs.set i (GPc.writeKeyIds s.keyIds) }
  | some (GPc.writeKeyIds old) =>
    some { s with keyIds := old ++ [to.String (env.adds i).1.cred.KeyID],
                  gs := s.gs.set i GPc.println }
  | some GPc.println =>
    match printlnArgs (env.adds i).1 with
    | Except.ok _ => some { s with gs := s.gs.set i (GPc.deferUnlock none) }
    | Except.error p => some { s with gs := s.gs.set i (GPc.deferUnlock (some p)) }
  | some (GPc.deferUnlock panicking) =>
    match s.mutex with
    | none => some { s with crashed := some Panic.unlockOfUnlockedMutex }
    | some _ => some { s with mutex := none, gs := s.gs.set i (GPc.deferDone panicking) }
  | some (GPc.deferDone panicking) =>
    if s.wg = 0 then some { s with crashed := some Panic.negativeWaitGroupCounter }
    else
      match panicking with
      | none => some { s with wg := s.wg - 1, gs := s.gs.set i GPc.exited }
      | some p => some { s with wg := s.wg - 1, gs := s.gs.set i (GPc.crash p) }
  | some (GPc.crash p) => some { s with crashed := some p }
  | some GPc.exited => none

/-- One atomic action of the test goroutine; `none` when it cannot move (blocked in
`wg.Wait`, or ended). -/
def stepMain (env : Env) (s : State) : Option State :=
  match s.mainPc with
  | MainPc.loopHead i =>
    if (i : Int) < env.parallelRequests then
      some { s with wg := s.wg + 1, mainPc := MainPc.goStmt i }
    else some { s with mainPc := MainPc.wait }
  | MainPc.goStmt i => some { s with gs := s.gs ++ [GPc.callAdd], mainPc := MainPc.loopHead (i + 1) }
  | MainPc.wait => if s.wg = 0 then some { s with mainPc := MainPc.sleep } else none
  | MainPc.sleep =>
    some { s with events := s.events ++ [Event.settleSleep], mainPc := MainPc.getApp }
  | MainPc.getApp =>
    match requireNoError s.t env.secondRead.2 "unable to list application passwords" with
    | (t, true) =>
      some { s with t := t, events := s.events ++ [Event.secondGetApplication],
                    mainPc := MainPc.collect }
    | (t, false) =>
      some { s with t := t, events := s.events ++ [Event.secondGetApplication],
                    mainPc := MainPc.aborted }
  | MainPc.collect =>
    match collectFoundKeyIds env.secondRead.1.PasswordCredentials [] with
    | none => some { s with crashed := some Panic.nilDereference }
    | some foundKeyIds => some { s with mainPc := MainPc.verify foundKeyIds }
  | MainPc.verify foundKeyIds =>
    some { s with t := verifyLoop foundKeyIds s.t s.keyIds,
                  events := s.events ++ [Event.membershipAssertions],
                  mainPc := MainPc.done }
  | MainPc.done => none
  | MainPc.aborted => none

/-- One step of the program: nothing moves once the process has been terminated. -/
def step (env : Env) (tid : Tid) (s : State) : Option State :=
  match s.crashed with
  | some _ => none
  | none =>
    match tid with
    | Tid.main => stepMain env s
    | Tid.go i => stepGo env i s

/-- Run a schedule: the threads move in the listed order; `none` when the schedule names
a thread that cannot move at its turn. -/
def run (env : Env) : List Tid → State → Option State
  | [], s => some s
  | tid :: rest, s =>
    match step env tid s with
    | none => none
    | some s1 => run env rest s1

/-- The number of goroutines the loop of line 79 spawns. -/
def Env.count (env : Env) : Nat := env.parallelRequests.toNat

/-- Whether the `i`-th `AddApplicationPassword` call returned an error. -/
def Env.addFailed (env : Env) (i : Nat) : Bool := (env.adds i).2.isSome

/-- The identifier the `i`-th goroutine appends: `to.String(resp.KeyID)`. -/
def Env.keyIdOf (env : Env) (i : Nat) : String := to.String (env.adds i).1.cred.KeyID

/-- How many of the `count` calls returned an error. -/
def Env.failedAdds (env : Env) : Nat := ((List.range env.count).filter env.addFailed).length

/-- The identifiers returned by the calls that succeeded, by goroutine index. -/
def Env.succeededIds (env : Env) : List String :=
  ((List.range env.count).filter (fun i => !env.addFailed i)).map env.keyIdOf

/-- The identifiers returned by all `count` calls, by goroutine index. -/
def Env.returnedIds (env : Env) : List String := (List.range env.count).map env.keyIdOf

/-- The test goroutine is past `wg.Wait()`. -/
def MainPc.pastWait : MainPc → Bool
  | MainPc.loopHead _ => false
  | MainPc.goStmt _ => false
  | MainPc.wait => false
  | _ => true

/-- The goroutine has not yet run its deferred `wg.Done()`. -/
def GPc.pendingDone : GPc → Bool
  | GPc.crash _ => false
  | GPc.exited => false
  | _ => true

/-- The goroutine is between `mutex.Lock()` and the deferred `mutex.Unlock()`. -/
def GPc.critical : GPc → Bool
  | GPc.readKeyIds => true
  | GPc.writeKeyIds _ => true
  | GPc.println => true
  | GPc.deferUnlock _ => true
  | _ => false

/-- The goroutine is at one of the two program points that access `keyIds`. -/
def GPc.accessesKeyIds : GPc → Bool
  | GPc.readKeyIds => true
  | GPc.writeKeyIds _ => true
  | _ => false

/-- The goroutine is past the store of line 92 (on the path where the call
succeeded). -/
def GPc.pastAppend : GPc → Bool
  | GPc.println => true
  | GPc.deferUnlock _ => true
  | GPc.deferDone _ => true
  | GPc.crash _ => true
  | GPc.exited => true
  | _ => false

/-- The identifiers of the goroutines that have executed the store of line 92, by
goroutine index; `k` is the index of the first goroutine of the list. -/
def appendedIdsFrom (env : Env) : Nat → List GPc → List String
  | _, [] => []
  | k, pc :: rest =>
    if !env.addFailed k && pc.pastAppend then env.keyIdOf k :: appendedIdsFrom env (k + 1) rest
    else appendedIdsFrom env (k + 1) rest

/-! ## The invariant of the fan-out -/

/-- What the program point of the test goroutine says about the number of goroutines
spawned so far (`n`), for a run that spawns `count` of them. -/
def MainPc.spawnedOk (count n : Nat) : MainPc → Prop
  | MainPc.loopHead i => n = i ∧ i ≤ count
  | MainPc.goStmt i => n = i ∧ i < count
  | _ => n = count

/-- The `wg.Add(1)` of the current iteration whose goroutine is not spawned yet. -/
def MainPc.addedAhead : MainPc → Nat
  | MainPc.goStmt _ => 1
  | _ => 0

/-- The invariant of the fan-out: the goroutines spawned match the loop counter; the
`WaitGroup` counter counts the goroutines that have not run `wg.Done`; the mutex is
locked by exactly the goroutine between `Lock` and `Unlock`; a slice read for the append
is still the current slice; `keyIds` holds the identifiers of the goroutines past their
store; only goroutines whose call succeeded get to the mutex; a goroutine whose call
failed and that is past `require.NoError` has marked the test failed; and past `wg.Wait`
no goroutine is left that has not run `wg.Done`. -/
structure Inv (env : Env) (s : State) : Prop where
  spawned : s.mainPc.spawnedOk env.count s.gs.length
  wgCount : s.wg = s.gs.countP GPc.pendingDone + s.mainPc.addedAhead
  mutexHolder : ∀ (j : Nat) (pc : GPc), s.gs[j]? = some pc → (pc.critical = true ↔ s.mutex = some j)
  mutexValid : ∀ j, s.mutex = some j → j < s.gs.length
  snapshot : ∀ (j : Nat) (old : List String), s.gs[j]? = some (GPc.writeKeyIds old) → old = s.keyIds
  appended : s.keyIds.Perm (appendedIdsFrom env 0 s.gs)
  succPath : ∀ (j : Nat) (pc : GPc), s.gs[j]? = some pc → (pc = GPc.lock ∨ pc.accessesKeyIds = true) →
    env.addFailed j = false
  failedFlag : ∀ (j : Nat) (pc : GPc), s.gs[j]? = some pc → env.addFailed j = true → pc ≠ GPc.callAdd →
    pc ≠ GPc.requireNoErr → s.t.failed = true
  barrier : s.mainPc.pastWait = true → ∀ pc ∈ s.gs, pc.pendingDone = false

/-- Lines 105-114 in sequence: collect `foundKeyIds` from the read-back result, then run
the membership assertions on the created key identifiers.  The outcome is the test object
and the panic, if any: a nil entry of `PasswordCredentials` stops the run at line 107,
before any assertion, with the test object as it was. -/
def verifyReadBack (t : T) (result : ApplicationResult) (keyIds : List String) :
    T × Option Panic :=
  match collectFoundKeyIds result.PasswordCredentials [] with
  | none => (t, some Panic.nilDereference)
  | some foundKeyIds => (verifyLoop foundKeyIds t keyIds, none)

/-- Whether an error is already a detailed error. -/
def GoError.isDetailed : GoError → Bool
  | GoError.detailed _ _ _ _ _ => true
  | GoError.plain _ => false

/-- The status code `autorest.NewErrorWithError` records for a response: that of the
response, or 0 (the undefined status code) for a nil response. -/
def statusCodeOf (resp : Option HTTPResponse) : Int :=
  match resp with
  | some r => r.StatusCode
  | none => 0

/-- What an operation hands back for a stage failure `e`: `e` itself when it is already
detailed, and otherwise the detailed error with original `e`, package type `provider`,
the operation as method, the status code of the response and the message of the stage. -/
def stageError (e : GoError) (method : String) (resp : Option HTTPResponse)
    (message : String) : GoError :=
  if e.isDetailed then e
  else GoError.detailed e "provider" method (statusCodeOf resp) message

/-! ## Progress: step bound and runs without a panic -/

/-- An upper bound on the number of steps a goroutine at this program point can still
take. -/
def GPc.remaining : GPc → Nat
  | GPc.callAdd => 9
  | GPc.requireNoErr => 8
  | GPc.lock => 7
  | GPc.readKeyIds => 6
  | GPc.writeKeyIds _ => 5
  | GPc.println => 4
  | GPc.deferUnlock _ => 3
  | GPc.deferDone _ => 2
  | GPc.crash _ => 1
  | GPc.exited => 0

/-- An upper bound on the number of steps the test goroutine can still take, together
with those of the goroutines it is still to spawn, when `count` are spawned in all. -/
def MainPc.remaining (count : Nat) : MainPc → Nat
  | MainPc.loopHead i => (count - i) * 11 + 6
  | MainPc.goStmt i => (count - i - 1) * 11 + 16
  | MainPc.wait => 5
  | MainPc.sleep => 4
  | MainPc.getApp => 3
  | MainPc.collect => 2
  | MainPc.verify _ => 1
  | MainPc.done => 0
  | MainPc.aborted => 0

/-- An upper bound on the number of steps the program can still take from a state: none
once the process is terminated. -/
def fuel (env : Env) (s : State) : Nat :=
  match s.crashed with
  | some _ => 0
  | none => 1 + s.mainPc.remaining env.count + (s.gs.map GPc.remaining).sum

/-- The goroutine is running its deferred calls because of a panic, or is about to
terminate the process. -/
def GPc.panicking : GPc → Bool
  | GPc.deferUnlock (some _) => true
  | GPc.deferDone (some _) => true
  | GPc.crash _ => true
  | _ => false

/-- Whether the response of a result carries at least one value for both `Request-Id`
and `Date`. -/
def hasBothHeaders (resp : PasswordCredentialResult) : Bool :=
  match resp.Response with
  | none => false
  | some r =>
    !(headerLookup r.Header "Request-Id").isEmpty && !(headerLookup r.Header "Date").isEmpty

/-- Every call that succeeds returns a response with a value for both `Request-Id` and
`Date`. -/
@[reducible] def Env.headersPresent (env : Env) : Prop :=
  ∀ i, i < env.count → env.addFailed i = false → hasBothHeaders (env.adds i).1 = true

/-- The invariant of the runs in which no print panics: no goroutine is panicking, a
goroutine at the print is one whose call succeeded, and the process is not terminated
before `wg.Wait` has returned. -/
structure NoPanic (env : Env) (s : State) : Prop where
  calm : ∀ (j : Nat) (pc : GPc), s.gs[j]? = some pc → pc.panicking = false
  printsOk : ∀ (j : Nat), s.gs[j]? = some GPc.println → env.addFailed j = false
  alive : s.mainPc.pastWait = false → s.crashed = none

/-! ## Example inputs -/

/-- A library instance for examples: the managed-identity authorizer succeeds, the base
client starts with three retry attempts, the environment holds what `env` says, and
`Atoi` knows the numerals `"7"` and `"0"`. -/
def exampleLibrary (env : String → Option String) : Library Unit :=
  { clientCredentialsAuthorizer := fun _ _ _ _ _ => (some (), none),
    msiAuthorizer := fun _ => (some (), none),
    NewWithBaseURI := fun uri sub =>
      { BaseURI := uri, SubscriptionID := sub, Authorizer := none, UserAgent := "Go",
        RetryAttempts := 3 },
    LookupEnv := env,
    Atoi := fun s =>
      if s = "7" then (7, none) else if s = "0" then (0, none)
      else (0, some (GoError.plain "strconv.Atoi: invalid syntax")) }

/-- Settings with no client credentials. -/
def exampleSettings : clientSettings :=
  { SubscriptionID := "sub", TenantID := "", ClientID := "", ClientSecret := "",
    Environment := { ActiveDirectoryEndpoint := "https://login.microsoftonline.com/" } }

/-- A pipeline for examples, over unit requests, with the library behaviour of
`autorest.NewErrorWithError`: stage `failAt` fails with the plain error `boom` (0 the
preparers, 1 the senders, which also hand back a 503 response, 2 the respond chains);
for any other `failAt` every stage succeeds. -/
def examplePipeline (failAt : Nat) : Pipeline Unit :=
  let boom : Option GoError := some (GoError.plain "boom")
  let prep : Option Unit × Option GoError := if failAt = 0 then (none, boom) else (some (), none)
  let send : Option HTTPResponse × Option GoError :=
    if failAt = 1 then (some { StatusCode := 503, Header := [] }, boom)
    else (some { StatusCode := 200, Header := [] }, none)
  let resp : Option GoError := if failAt = 2 then boom else none
  { getApplicationPreparer := fun _ => prep,
    getApplicationSender := fun _ => send,
    getApplicationRespond := fun _ => ((none, []), resp),
    addPasswordPreparer := fun _ _ _ => prep,
    addPasswordSender := fun _ => send,
    addPasswordRespond := fun _ =>
      ({ DisplayName := none, EndDateTime := none, KeyID := none }, resp),
    removePasswordPreparer := fun _ _ => prep,
    removePasswordSender := fun _ => send,
    removePasswordRespond := fun _ => resp,
    NewErrorWithError := autorestNewErrorWithError }

/-- A pipeline for examples like `examplePipeline`, failing with the error `e`. -/
def examplePipelineWith (e : GoError) (failAt : Nat) : Pipeline Unit :=
  let prep : Option Unit × Option GoError :=
    if failAt = 0 then (none, some e) else (some (), none)
  let send : Option HTTPResponse × Option GoError :=
    if failAt = 1 then (some { StatusCode := 503, Header := [] }, some e)
    else (some { StatusCode := 200, Header := [] }, none)
  let resp : Option GoError := if failAt = 2 then some e else none
  { getApplicationPreparer := fun _ => prep,
    getApplicationSender := fun _ => send,
    getApplicationRespond := fun _ => ((none, []), resp),
    addPasswordPreparer := fun _ _ _ => prep,
    addPasswordSender := fun _ => send,
    addPasswordRespond := fun _ =>
      ({ DisplayName := none, EndDateTime := none, KeyID := none }, resp),
    removePasswordPreparer := fun _ _ => prep,
    removePasswordSender := fun _ => send,
    removePasswordRespond := fun _ => resp,
    NewErrorWithError := autorestNewErrorWithError }

/-- A detailed error for examples, as a sender of go-autorest may return it. -/
def exampleDetailedError : GoError :=
  GoError.detailed (GoError.plain "timeout") "autorest/azure" "Send" 504 "gateway timeout"

/-- The response of `okResponse "k0"`. -/
def okHTTPResponse : HTTPResponse :=
  { StatusCode := 200, Header := [("Request-Id", ["r-1"]), ("Date", ["Mon, 02 Jan 2006"])] }

/-- A response without a `Date` header. -/
def noDateHTTPResponse : HTTPResponse :=
  { StatusCode := 200, Header := [("Request-Id", ["r-1"])] }

/-- A successful `AddApplicationPassword` result for examples: status 200, both headers
present, the given key identifier. -/
def okResponse (keyId : String) : PasswordCredentialResult :=
  { Response := some { StatusCode := 200,
                       Header := [("Request-Id", ["r-1"]), ("Date", ["Mon, 02 Jan 2006"])] },
    cred := { DisplayName := none, EndDateTime := none, KeyID := some keyId } }

/-- An environment for examples with two goroutines: the call of goroutine 0 fails with a
transport error when `failFirst` holds and returns key `k0` otherwise, the call of
goroutine 1 returns key `k1`; the second read returns both credentials. -/
def exampleEnv (failFirst : Bool) : Env :=
  { parallelRequests := 2,
    adds := fun i =>
      if i = 0 then
        (if failFirst then (zeroPasswordCredentialResult, some (GoError.plain "transport"))
         else (okResponse "k0", none))
      else (okResponse "k1", none),
    secondRead :=
      ({ Response := none, Id := some "app",
         PasswordCredentials :=
           [some { DisplayName := none, EndDateTime := none, KeyID := some "k0" },
            some { DisplayName := none, EndDateTime := none, KeyID := some "k1" }] }, none) }

/-- An environment with one goroutine whose call succeeds with a nil `KeyID` and a
response that lacks the `Date` header. -/
def exampleEnvNoDate : Env :=
  { parallelRequests := 1,
    adds := fun _ =>
      ({ Response := some noDateHTTPResponse,
         cred := { DisplayName := none, EndDateTime := none, KeyID := none } }, none),
    secondRead := (zeroApplicationResult, none) }

/-- An environment with one goroutine whose call returns key `k9`, while the second read
returns the credential `k0` followed by a nil entry. -/
def exampleEnvNilEntry : Env :=
  { parallelRequests := 1,
    adds := fun _ => (okResponse "k9", none),
    secondRead :=
      ({ Response := none, Id := some "app",
         PasswordCredentials :=
           [some { DisplayName := none, EndDateTime := none, KeyID := some "k0" }, none] },
       none) }

/-- An environment with three goroutines: the call of goroutine 0 returns key `k0`, the
call of goroutine 1 fails with a transport error, and the call of goroutine 2 returns key
`k2` with a response that lacks the `Date` header. -/
def exampleEnvPanic : Env :=
  { parallelRequests := 3,
    adds := fun i =>
      if i = 0 then (okResponse "k0", none)
      else if i = 1 then (zeroPasswordCredentialResult, some (GoError.plain "transport"))
      else ({ Response := some noDateHTTPResponse,
              cred := { DisplayName := none, EndDateTime := none, KeyID := some "k2" } }, none),
    secondRead := (zeroApplicationResult, none) }

/-- A schedule for `exampleEnv false`: goroutine 0 starts before goroutine 1 is spawned,
goroutine 1 takes the mutex first, and the test goroutine runs to the end. -/
def scheduleAllOk : List Tid :=
  [Tid.main, Tid.main, Tid.go 0, Tid.main, Tid.main, Tid.go 1, Tid.go 0, Tid.go 1,
   Tid.main, Tid.go 1, Tid.go 1, Tid.go 1, Tid.go 1, Tid.go 1, Tid.go 0, Tid.go 0,
   Tid.go 1, Tid.go 0, Tid.go 0, Tid.go 0, Tid.go 0,
   Tid.main, Tid.main, Tid.main, Tid.main, Tid.main]

/-- A schedule for `exampleEnv true`: goroutine 0 fails while goroutine 1 is in flight;
goroutine 1 and the test goroutine run to the end. -/
def scheduleOneFails : List Tid :=
  [Tid.main, Tid.main, Tid.main, Tid.main, Tid.go 1, Tid.go 0, Tid.go 1, Tid.go 0,
   Tid.main, Tid.go 0, Tid.go 1, Tid.go 1, Tid.go 1, Tid.go 1, Tid.go 1, Tid.go 1,
   Tid.main, Tid.main, Tid.main, Tid.main, Tid.main]

/-- The schedule of the only goroutine of `exampleEnvNilEntry` followed by the test
goroutine up to the collecting loop. -/
def scheduleNilEntry : List Tid :=
  [Tid.main, Tid.main, Tid.main, Tid.go 0, Tid.go 0, Tid.go 0, Tid.go 0, Tid.go 0,
   Tid.go 0, Tid.go 0, Tid.go 0, Tid.main, Tid.main, Tid.main, Tid.main]

/-- A schedule for `exampleEnvPanic`: all three goroutines are spawned, goroutine 1 fails
and ends, goroutine 0 gets to `mutex.Lock`, goroutine 2 takes the mutex, appends, panics
in the print, runs its deferred calls and terminates the process. -/
def schedulePanic : List Tid :=
  [Tid.main, Tid.main, Tid.main, Tid.main, Tid.main, Tid.main, Tid.main,
   Tid.go 1, Tid.go 1, Tid.go 1, Tid.go 0, Tid.go 0,
   Tid.go 2, Tid.go 2, Tid.go 2, Tid.go 2, Tid.go 2, Tid.go 2, Tid.go 2, Tid.go 2, Tid.go 2]

/-- The state `scheduleAllOk` ends in. -/
def finalAllOk : State :=
  { mainPc := MainPc.done, gs := [GPc.exited, GPc.exited], wg := 0, mutex := none,
    keyIds := ["k1", "k0"], t := { failed := false, reports := [] },
    events := [Event.addReturned 0, Event.addReturned 1, Event.settleSleep,
      Event.secondGetApplication, Event.membershipAssertions],
    crashed := none }

/-- The state `scheduleOneFails` ends in. -/
def finalOneFails : State :=
  { mainPc := MainPc.done, gs := [GPc.exited, GPc.exited], wg := 0, mutex := none,
    keyIds := ["k1"],
    t := { failed := true,
           reports := [Report.noError (GoError.plain "transport") "error adding password"] },
    events := [Event.addReturned 1, Event.addReturned 0, Event.settleSleep,
      Event.secondGetApplication, Event.membershipAssertions],
    crashed := none }

/-- The state `scheduleNilEntry` ends in: the process was terminated in the collecting
loop and no failure was recorded. -/
def finalNilEntry : State :=
  { mainPc := MainPc.collect, gs := [GPc.exited], wg := 0, mutex := none,
    keyIds := ["k9"], t := { failed := false, reports := [] },
    events := [Event.addReturned 0, Event.settleSleep, Event.secondGetApplication],
    crashed := some Panic.nilDereference }

/-- The state `schedulePanic` ends in: the process is terminated while goroutine 0, whose
call succeeded, is still at `mutex.Lock`. -/
def finalPanic : State :=
  { mainPc := MainPc.wait, gs := [GPc.lock, GPc.exited, GPc.crash Panic.indexOutOfRange],
    wg := 1, mutex := none, keyIds := ["k2"],
    t := { failed := true,
           reports := [Report.noError (GoError.plain "transport") "error adding password"] },
    events := [Event.addReturned 1, Event.addReturned 0, Event.addReturned 2],
    crashed := some Panic.indexOutOfRange }

/-- The state after the first eleven steps of `scheduleAllOk`: goroutine 1 holds the
mutex and is about to store, goroutine 0 waits in `mutex.Lock`. -/
def midAllOk : State :=
  { mainPc := MainPc.wait, gs := [GPc.lock, GPc.writeKeyIds []], wg := 2, mutex := some 1,
    keyIds := [], t := { failed := false, reports := [] },
    events := [Event.addReturned 0, Event.addReturned 1], crashed := none }

/-- The state after the first seventeen steps of `scheduleOneFails`: both goroutines have
ended and `wg.Wait` has just returned. -/
def afterWaitOneFails : State :=
  { finalOneFails with mainPc := MainPc.sleep,
                       events := [Event.addReturned 1, Event.addReturned 0] }

/-- A state with one goroutine, at `mutex.Lock()` with the mutex free. -/
def atLockState : State :=
  { mainPc := MainPc.wait, gs := [GPc.lock], wg := 1, mutex := none, keyIds := [],
    t := { failed := false, reports := [] }, events := [Event.addReturned 0],
    crashed := none }

/-! # Theorems -/

/-! ## The membership assertions -/

theorem containsElement_iff (l : List String) (x : String) :
    containsElement l x = true ↔ x ∈ l := by
  induction l with
  | nil => simp [containsElement]
  | cons a rest ih =>
    by_cases h : a = x
    · simp [containsElement, h]
    · have h2 : ¬ x = a := fun e => h e.symm
      simp [containsElement, h, h2, ih]

theorem verifyLoop_failed_mono (found : List String) (keyIds : List String) (t : T)
    (h : t.failed = true) : (verifyLoop found t keyIds).failed = true := by
  induction keyIds generalizing t with
  | nil => simpa [verifyLoop] using h
  | cons k rest ih =>
    rw [verifyLoop]
    apply ih
    unfold assertContains
    split
    · exact h
    · rfl

theorem verifyLoop_reports (found : List String) (keyIds : List String) (t : T) :
    (verifyLoop found t keyIds).reports =
      t.reports ++ (keyIds.filter (fun k => decide (k ∉ found))).map
        (fun k => Report.notContains found k notPersistedMsg) := by
  induction keyIds generalizing t with
  | nil => simp [verifyLoop]
  | cons k rest ih =>
    rw [verifyLoop, ih]
    by_cases hk : k ∈ found
    · have hc : containsElement found k = true := (containsElement_iff found k).2 hk
      simp [assertContains, hc, hk]
    · have hc : containsElement found k = false := by
        cases hb : containsElement found k with
        | false => rfl
        | true => exact absurd ((containsElement_iff found k).1 hb) hk
      simp [assertContains, hc, hk, T.Errorf]

theorem verifyLoop_eq_self_of_reports (found : List String) (keyIds : List String) (t : T)
    (h : ∀ k ∈ keyIds, k ∈ found) : verifyLoop found t keyIds = t := by
  induction keyIds generalizing t with
  | nil => rfl
  | cons k rest ih =>
    have hk : containsElement found k = true := (containsElement_iff found k).2 (h k (by simp))
    rw [verifyLoop]
    simp only [assertContains, hk, if_true]
    exact ih t (fun x hx => h x (by simp [hx]))

theorem collectFoundKeyIds_mem (creds : List (Option passwordCredential))
    (acc found : List String) (h : collectFoundKeyIds creds acc = some found) (k : String) :
    k ∈ found ↔ k ∈ acc ∨ ∃ cred, some cred ∈ creds ∧ to.String cred.KeyID = k := by
  induction creds generalizing acc with
  | nil =>
    simp only [collectFoundKeyIds, Option.some.injEq] at h
    subst h
    simp
  | cons c rest ih =>
    cases c with
    | none => simp [collectFoundKeyIds] at h
    | some cred =>
      simp only [collectFoundKeyIds] at h
      rw [ih _ h]
      constructor
      · rintro (h1 | ⟨c2, hc2, e⟩)
        · rcases List.mem_append.1 h1 with h1 | h2
          · exact Or.inl h1
          · exact Or.inr ⟨cred, List.mem_cons_self _ _, (List.mem_singleton.1 h2).symm⟩
        · exact Or.inr ⟨c2, List.mem_cons_of_mem _ hc2, e⟩
      · rintro (h1 | ⟨c2, hc2, e⟩)
        · exact Or.inl (List.mem_append.2 (Or.inl h1))
        · rcases List.mem_cons.1 hc2 with hc2 | hc2
          · have hcc : c2 = cred := Option.some.inj hc2
            subst hcc
            exact Or.inl (List.mem_append.2 (Or.inr (List.mem_singleton.2 e.symm)))
          · exact Or.inr ⟨c2, hc2, e⟩

theorem collectFoundKeyIds_eq_none_iff (creds : List (Option passwordCredential))
    (acc : List String) : collectFoundKeyIds creds acc = none ↔ none ∈ creds := by
  induction creds generalizing acc with
  | nil => simp [collectFoundKeyIds]
  | cons c rest ih =>
    cases c with
    | none => simp [collectFoundKeyIds]
    | some cred =>
      simp only [collectFoundKeyIds, ih, List.mem_cons]
      constructor
      · intro h
        exact Or.inr h
      · rintro (h | h)
        · cases h
        · exact h

theorem stepMain_collect_eq_verifyReadBack (env : Env) (s : State)
    (hpc : s.mainPc = MainPc.collect) (hc : s.crashed = none) :
    match verifyReadBack s.t env.secondRead.1 s.keyIds with
    | (_, some p) => run env [Tid.main] s = some { s with crashed := some p }
    | (t1, none) =>
      run env [Tid.main, Tid.main] s =
        some { s with t := t1, events := s.events ++ [Event.membershipAssertions],
                      mainPc := MainPc.done } := by
  unfold verifyReadBack
  cases hcol : collectFoundKeyIds env.secondRead.1.PasswordCredentials [] with
  | none => simp [run, step, stepMain, hpc, hc, hcol]
  | some found => simp [run, step, stepMain, hpc, hc, hcol]

/-- C1, as stated, fails: with the created key `k9` and a read-back holding the credential
`k0` and a nil entry, line 107 dereferences the nil entry and the run ends there; no
assertion failure is recorded although `k9` was not read back. -/
theorem C1_nil_entry_records_no_failure :
    run exampleEnvNilEntry scheduleNilEntry initState = some finalNilEntry ∧
    finalNilEntry.t.reports = [] ∧
    verifyReadBack { failed := false, reports := [] } exampleEnvNilEntry.secondRead.1 ["k9"] =
      ({ failed := false, reports := [] }, some Panic.nilDereference) ∧
    ¬ ((verifyReadBack { failed := false, reports := [] } exampleEnvNilEntry.secondRead.1
          ["k9"]).1.reports = [] ↔
        ∀ k ∈ ["k9"], ∃ cred, some cred ∈ exampleEnvNilEntry.secondRead.1.PasswordCredentials ∧
          to.String cred.KeyID = k) := by
  refine ⟨rfl, rfl, rfl, ?_⟩
  intro h
  obtain ⟨cred, hmem, hk⟩ := h.1 rfl "k9" (by simp)
  simp [exampleEnvNilEntry] at hmem
  subst hmem
  simp [to.String] at hk

/-- C1, amended: for every list of created key identifiers and every read-back result
without a nil entry in `PasswordCredentials`, lines 105-114 run without a panic and leave
the test object without a new failure exactly when every created key identifier is
`to.String(cred.KeyID)` of some credential read back; and with no created key identifier
nothing is recorded, whatever was read back. -/
theorem C1_verification_passes_iff_all_read_back (keyIds : List String)
    (result : ApplicationResult) (t : T) :
    ((∀ c ∈ result.PasswordCredentials, c ≠ none) →
      (verifyReadBack t result keyIds).2 = none ∧
      ((verifyReadBack t result keyIds).1.reports = t.reports ↔
        ∀ k ∈ keyIds, ∃ cred, some cred ∈ result.PasswordCredentials ∧
          to.String cred.KeyID = k) ∧
      ((∀ k ∈ keyIds, ∃ cred, some cred ∈ result.PasswordCredentials ∧
          to.String cred.KeyID = k) → (verifyReadBack t result keyIds).1 = t)) ∧
    (verifyReadBack t result []).1 = t := by
  constructor
  · intro hnonnil
    cases hcollect : collectFoundKeyIds result.PasswordCredentials [] with
    | none =>
      have hmem := (collectFoundKeyIds_eq_none_iff _ _).1 hcollect
      exact absurd rfl (hnonnil none hmem)
    | some foundKeyIds =>
      have hmem : ∀ k, k ∈ foundKeyIds ↔
          ∃ cred, some cred ∈ result.PasswordCredentials ∧ to.String cred.KeyID = k := by
        intro k
        have := collectFoundKeyIds_mem _ _ _ hcollect k
        simpa using this
      simp only [verifyReadBack, hcollect]
      refine ⟨trivial, ?_, ?_⟩
      · rw [verifyLoop_reports]
        constructor
        · intro h k hk
          rw [← hmem]
          by_contra hnot
          have hin : k ∈ keyIds.filter (fun k => decide (k ∉ foundKeyIds)) := by
            simp [List.mem_filter, hk, hnot]
          have hlen := congrArg List.length h
          simp only [List.length_append, List.length_map] at hlen
          have hz : (keyIds.filter (fun k => decide (k ∉ foundKeyIds))).length = 0 := by omega
          rw [List.length_eq_zero.mp hz] at hin
          simp at hin
        · intro h
          have : keyIds.filter (fun k => decide (k ∉ foundKeyIds)) = [] := by
            rw [List.filter_eq_nil_iff]
            intro k hk
            simp [(hmem k).2 (h k hk)]
          rw [this]
          simp
      · intro h
        exact verifyLoop_eq_self_of_reports _ _ _ (fun k hk => (hmem k).2 (h k hk))
  · unfold verifyReadBack
    split <;> rfl

/-- C1 (amended) at concrete inputs: both created keys are read back and nothing is
recorded; a created key that was not read back gives a report; with no created key
nothing is recorded even when the read-back has a nil entry. -/
theorem C1_verification_passes_iff_all_read_back_witness :
    (verifyReadBack { failed := false, reports := [] } (exampleEnv false).secondRead.1
        ["k1", "k0"]).2 = none ∧
    (verifyReadBack { failed := false, reports := [] } (exampleEnv false).secondRead.1
        ["k1", "k0"]).1 = { failed := false, reports := [] } ∧
    (¬ ∀ k ∈ ["k1", "k2"], ∃ cred,
        some cred ∈ (exampleEnv false).secondRead.1.PasswordCredentials ∧
          to.String cred.KeyID = k) ∧
    (verifyReadBack { failed := false, reports := [] } exampleEnvNilEntry.secondRead.1 []).1 =
      { failed := false, reports := [] } :=
  ⟨((C1_verification_passes_iff_all_read_back ["k1", "k0"] (exampleEnv false).secondRead.1
      { failed := false, reports := [] }).1 (by decide)).1,
   ((C1_verification_passes_iff_all_read_back ["k1", "k0"] (exampleEnv false).secondRead.1
      { failed := false, reports := [] }).1 (by decide)).2.2
      (by simp [exampleEnv, to.String]),
   fun h => absurd
     (((C1_verification_passes_iff_all_read_back ["k1", "k2"] (exampleEnv false).secondRead.1
      { failed := false, reports := [] }).1 (by decide)).2.1.2 h) (by decide),
   (C1_verification_passes_iff_all_read_back [] exampleEnvNilEntry.secondRead.1
      { failed := false, reports := [] }).2⟩

theorem length_filter_not_mem (keyIds found : List String) :
    (keyIds.filter (fun k => decide (k ∉ found))).length +
      (keyIds.filter (fun k => decide (k ∈ found))).length = keyIds.length := by
  induction keyIds with
  | nil => rfl
  | cons k rest ih =>
    by_cases hk : k ∈ found
    · simp [List.filter_cons, hk] at ih ⊢
      omega
    · simp [List.filter_cons, hk] at ih ⊢
      omega

/-- C2: the loop reports exactly the created key identifiers that are absent from the
read-back list, once per occurrence and in order, and goes on after a miss; with 20
distinct identifiers of which 18 are read back, the reports are those of the two absent
ones. -/
theorem C2_reports_exactly_the_absent (keyIds foundKeyIds : List String) (t : T) :
    (verifyLoop foundKeyIds t keyIds).reports =
        t.reports ++ (keyIds.filter (fun k => decide (k ∉ foundKeyIds))).map
          (fun k => Report.notContains foundKeyIds k notPersistedMsg) ∧
    (keyIds.Nodup → keyIds.length = 20 →
      (keyIds.filter (fun k => decide (k ∈ foundKeyIds))).length = 18 →
      ∃ x y, x ≠ y ∧ x ∈ keyIds ∧ y ∈ keyIds ∧ x ∉ foundKeyIds ∧ y ∉ foundKeyIds ∧
        (∀ k ∈ keyIds, k ∉ foundKeyIds → k = x ∨ k = y) ∧
        (verifyLoop foundKeyIds t keyIds).reports =
          t.reports ++ [Report.notContains foundKeyIds x notPersistedMsg,
                        Report.notContains foundKeyIds y notPersistedMsg]) := by
  refine ⟨verifyLoop_reports _ _ _, ?_⟩
  intro hnd hlen h18
  have hsum := length_filter_not_mem keyIds foundKeyIds
  have h2 : (keyIds.filter (fun k => decide (k ∉ foundKeyIds))).length = 2 := by omega
  have hnd2 : (keyIds.filter (fun k => decide (k ∉ foundKeyIds))).Nodup := hnd.filter _
  have hmem : ∀ k, k ∈ keyIds.filter (fun k => decide (k ∉ foundKeyIds)) ↔
      k ∈ keyIds ∧ k ∉ foundKeyIds := by
    intro k
    simp [List.mem_filter]
  rw [verifyLoop_reports]
  generalize keyIds.filter (fun k => decide (k ∉ foundKeyIds)) = missing at h2 hnd2 hmem
  match missing, h2 with
  | [x, y], _ =>
    have hx := (hmem x).1 (by simp)
    have hy := (hmem y).1 (by simp)
    refine ⟨x, y, ?_, hx.1, hy.1, hx.2, hy.2, ?_, rfl⟩
    · intro e
      subst e
      simp at hnd2
    · intro k hk hkn
      have := (hmem k).2 ⟨hk, hkn⟩
      simpa using this

/-- C2 at a concrete input: twenty distinct identifiers of which the first eighteen are
read back. -/
theorem C2_reports_exactly_the_absent_witness :
    ∃ x y, x ≠ y ∧ x ∉ ["a1", "a2", "a3", "a4", "a5", "a6", "a7", "a8", "a9", "b0",
        "b1", "b2", "b3", "b4", "b5", "b6", "b7", "b8"] ∧
      y ∉ ["a1", "a2", "a3", "a4", "a5", "a6", "a7", "a8", "a9", "b0",
        "b1", "b2", "b3", "b4", "b5", "b6", "b7", "b8"] ∧
      (verifyLoop ["a1", "a2", "a3", "a4", "a5", "a6", "a7", "a8", "a9", "b0",
        "b1", "b2", "b3", "b4", "b5", "b6", "b7", "b8"] { failed := false, reports := [] }
        ["a1", "a2", "a3", "a4", "a5", "a6", "a7", "a8", "a9", "b0",
         "b1", "b2", "b3", "b4", "b5", "b6", "b7", "b8", "b9", "c0"]).reports.length = 2 := by
  obtain ⟨x, y, hxy, _, _, hx, hy, _, hr⟩ :=
    (C2_reports_exactly_the_absent
      ["a1", "a2", "a3", "a4", "a5", "a6", "a7", "a8", "a9", "b0",
       "b1", "b2", "b3", "b4", "b5", "b6", "b7", "b8", "b9", "c0"]
      ["a1", "a2", "a3", "a4", "a5", "a6", "a7", "a8", "a9", "b0",
       "b1", "b2", "b3", "b4", "b5", "b6", "b7", "b8"]
      { failed := false, reports := [] }).2 (by decide) (by decide) (by decide)
  exact ⟨x, y, hxy, hx, hy, by rw [hr]; rfl⟩

/-! ## `newAzureProvider` and the three operations -/

/-- C8: with an authorizer obtained, `RETRY_ATTEMPTS` is an optional integer override:
a value `strconv.Atoi` parses as `n` gives a provider whose client has
`RetryAttempts = n`; a value it rejects gives that error and a nil provider; when the
variable is unset the client keeps the `RetryAttempts` of
`newMSGraphApplicationClient`. -/
theorem C8_retry_attempts_override {Auth : Type} (lib : Library Auth)
    (settings : clientSettings) (authorizer : Option Auth)
    (hauth : getAuthorizer lib settings "https://graph.microsoft.com" = (authorizer, none)) :
    (∀ raw n, lib.LookupEnv "RETRY_ATTEMPTS" = some raw → lib.Atoi raw = (n, none) →
      ∃ p, newAzureProvider lib settings = (some p, none) ∧
        p.msGraphAppClient.RetryAttempts = n) ∧
    (∀ raw v e, lib.LookupEnv "RETRY_ATTEMPTS" = some raw → lib.Atoi raw = (v, some e) →
      newAzureProvider lib settings = (none, some e)) ∧
    (lib.LookupEnv "RETRY_ATTEMPTS" = none →
      ∃ p, newAzureProvider lib settings = (some p, none) ∧
        p.msGraphAppClient.RetryAttempts =
          (newMSGraphApplicationClient lib settings.SubscriptionID).RetryAttempts) := by
  refine ⟨?_, ?_, ?_⟩
  · intro raw n henv hatoi
    simp only [newAzureProvider, hauth, henv, hatoi]
    exact ⟨_, rfl, rfl⟩
  · intro raw v e henv hatoi
    simp only [newAzureProvider, hauth, henv, hatoi]
  · intro henv
    simp only [newAzureProvider, hauth, henv]
    refine ⟨_, rfl, ?_⟩
    simp [MSGraphApplicationClient.AddToUserAgent]

/-- C8 at concrete inputs: `RETRY_ATTEMPTS` set to `7`, set to `seven`, and unset. -/
theorem C8_retry_attempts_override_witness :
    (∃ p, newAzureProvider (exampleLibrary (fun k => if k = "RETRY_ATTEMPTS" then some "7" else none))
        exampleSettings = (some p, none) ∧ p.msGraphAppClient.RetryAttempts = 7) ∧
    newAzureProvider (exampleLibrary (fun k => if k = "RETRY_ATTEMPTS" then some "seven" else none))
        exampleSettings = (none, some (GoError.plain "strconv.Atoi: invalid syntax")) ∧
    (∃ p, newAzureProvider (exampleLibrary (fun _ => none)) exampleSettings = (some p, none) ∧
        p.msGraphAppClient.RetryAttempts = 3) :=
  ⟨(C8_retry_attempts_override
      (exampleLibrary (fun k => if k = "RETRY_ATTEMPTS" then some "7" else none))
      exampleSettings (some ()) rfl).1 "7" 7 rfl rfl,
   (C8_retry_attempts_override
      (exampleLibrary (fun k => if k = "RETRY_ATTEMPTS" then some "seven" else none))
      exampleSettings (some ()) rfl).2.1 "seven" 0 _ rfl rfl,
   (C8_retry_attempts_override (exampleLibrary (fun _ => none))
      exampleSettings (some ()) rfl).2.2 rfl⟩

/-- C9, as stated, fails: when the preparer of `GetApplication` fails with the plain error
`boom`, the operation returns a detailed error that wraps `boom`, not `boom` itself. -/
theorem C9_error_not_returned_unchanged :
    ((examplePipeline 0).getApplicationPreparer "app").2 = some (GoError.plain "boom") ∧
    (GetApplication (examplePipeline 0) "app").2 =
      some (GoError.detailed (GoError.plain "boom") "provider" "GetApplication" 0
        "Failure preparing request") ∧
    (GetApplication (examplePipeline 0) "app").2 ≠ some (GoError.plain "boom") := by
  refine ⟨rfl, rfl, ?_⟩
  decide

theorem autorestNewErrorWithError_eq_stageError (e : GoError) (method : String)
    (resp : Option HTTPResponse) (message : String) :
    autorestNewErrorWithError e "provider" method resp message =
      stageError e method resp message := by
  cases e <;> cases resp <;> rfl

/-- C9, amended: with the library behaviour of `autorest.NewErrorWithError`, whenever the
prepare, send or respond stage of `GetApplication`, `AddApplicationPassword` or
`RemoveApplicationPassword` fails with an error `e`, the operation returns `e` itself
when `e` is already a detailed error, and otherwise the detailed error whose original is
`e`, with package type `provider`, the operation name as method, the status code of the
response (0 for the nil response of the prepare stage) and the message of the stage; in
the second case what is returned differs from `e`. -/
theorem C9_stage_error_kept_or_wrapped {Req : Type} (p : Pipeline Req)
    (hlib : p.NewErrorWithError = autorestNewErrorWithError)
    (applicationObjectID displayName keyID : String) (endDateTime : Int) (e : GoError) :
    (∀ req, p.getApplicationPreparer applicationObjectID = (req, some e) →
      (GetApplication p applicationObjectID).2 =
        some (stageError e "GetApplication" none "Failure preparing request")) ∧
    (∀ req resp, p.getApplicationPreparer applicationObjectID = (req, none) →
      p.getApplicationSender req = (resp, some e) →
      (GetApplication p applicationObjectID).2 =
        some (stageError e "GetApplication" resp "Failure sending request")) ∧
    (∀ req resp body, p.getApplicationPreparer applicationObjectID = (req, none) →
      p.getApplicationSender req = (resp, none) →
      p.getApplicationRespond resp = (body, some e) →
      (GetApplication p applicationObjectID).2 =
        some (stageError e "GetApplication" resp "Failure responding to request")) ∧
    (∀ req, p.addPasswordPreparer applicationObjectID displayName endDateTime = (req, some e) →
      (AddApplicationPassword p applicationObjectID displayName endDateTime).2 =
        some (stageError e "AddApplicationPassword" none "Failure preparing request")) ∧
    (∀ req resp, p.addPasswordPreparer applicationObjectID displayName endDateTime = (req, none) →
      p.addPasswordSender req = (resp, some e) →
      (AddApplicationPassword p applicationObjectID displayName endDateTime).2 =
        some (stageError e "AddApplicationPassword" resp "Failure sending request")) ∧
    (∀ req resp body,
      p.addPasswordPreparer applicationObjectID displayName endDateTime = (req, none) →
      p.addPasswordSender req = (resp, none) →
      p.addPasswordRespond resp = (body, some e) →
      (AddApplicationPassword p applicationObjectID displayName endDateTime).2 =
        some (stageError e "AddApplicationPassword" resp "Failure responding to request")) ∧
    (∀ req, p.removePasswordPreparer applicationObjectID keyID = (req, some e) →
      (RemoveApplicationPassword p applicationObjectID keyID).2 =
        some (stageError e "RemoveApplicationPassword" none "Failure preparing request")) ∧
    (∀ req resp, p.removePasswordPreparer applicationObjectID keyID = (req, none) →
      p.removePasswordSender req = (resp, some e) →
      (RemoveApplicationPassword p applicationObjectID keyID).2 =
        some (stageError e "RemoveApplicationPassword" resp "Failure sending request")) ∧
    (∀ req resp, p.removePasswordPreparer applicationObjectID keyID = (req, none) →
      p.removePasswordSender req = (resp, none) →
      p.removePasswordRespond resp = some e →
      (RemoveApplicationPassword p applicationObjectID keyID).2 =
        some (stageError e "RemoveApplicationPassword" resp
          "Failure responding to request")) ∧
    (∀ method resp message,
      (e.isDetailed = true → stageError e method resp message = e) ∧
      (e.isDetailed = false →
        stageError e method resp message =
          GoError.detailed e "provider" method (statusCodeOf resp) message ∧
        stageError e method resp message ≠ e)) := by
  refine ⟨?_, ?_, ?_, ?_, ?_, ?_, ?_, ?_, ?_, ?_⟩
  · intro req h
    simp only [GetApplication, h, hlib, autorestNewErrorWithError_eq_stageError]
  · intro req resp h1 h2
    simp only [GetApplication, h1, h2, hlib, autorestNewErrorWithError_eq_stageError]
  · intro req resp body h1 h2 h3
    simp only [GetApplication, h1, h2, getApplicationResponder, h3, hlib,
      autorestNewErrorWithError_eq_stageError]
  · intro req h
    simp only [AddApplicationPassword, h, hlib, autorestNewErrorWithError_eq_stageError]
  · intro req resp h1 h2
    simp only [AddApplicationPassword, h1, h2, hlib, autorestNewErrorWithError_eq_stageError]
  · intro req resp body h1 h2 h3
    simp only [AddApplicationPassword, h1, h2, addPasswordResponder, h3, hlib,
      autorestNewErrorWithError_eq_stageError]
  · intro req h
    simp only [RemoveApplicationPassword, h, hlib, autorestNewErrorWithError_eq_stageError]
  · intro req resp h1 h2
    simp only [RemoveApplicationPassword, h1, h2, hlib,
      autorestNewErrorWithError_eq_stageError]
  · intro req resp h1 h2 h3
    simp only [RemoveApplicationPassword, h1, h2, removePasswordResponder, h3, hlib,
      autorestNewErrorWithError_eq_stageError]
  · intro method resp message
    constructor
    · intro hd
      simp [stageError, hd]
    · intro hd
      have hw : stageError e method resp message =
          GoError.detailed e "provider" method (statusCodeOf resp) message := by
        simp [stageError, hd]
      refine ⟨hw, ?_⟩
      rw [hw]
      intro heq
      have hsz := congrArg sizeOf heq
      simp at hsz
      omega

/-- C9 (amended) at concrete inputs: a preparer failing with a plain error (wrapped), a
sender failing with a detailed error (returned as it is), a respond chain failing with a
plain error (wrapped). -/
theorem C9_stage_error_kept_or_wrapped_witness :
    (GetApplication (examplePipelineWith (GoError.plain "boom") 0) "app").2 =
      some (GoError.detailed (GoError.plain "boom") "provider" "GetApplication" 0
        "Failure preparing request") ∧
    (AddApplicationPassword (examplePipelineWith exampleDetailedError 1) "app" "" 86400).2 =
      some exampleDetailedError ∧
    (RemoveApplicationPassword (examplePipelineWith (GoError.plain "boom") 2) "app" "key").2 =
      some (GoError.detailed (GoError.plain "boom") "provider" "RemoveApplicationPassword" 200
        "Failure responding to request") :=
  ⟨(C9_stage_error_kept_or_wrapped (examplePipelineWith (GoError.plain "boom") 0) rfl
      "app" "" "key" 86400 (GoError.plain "boom")).1 none rfl,
   (C9_stage_error_kept_or_wrapped (examplePipelineWith exampleDetailedError 1) rfl
      "app" "" "key" 86400 exampleDetailedError).2.2.2.2.1 (some ())
      (some { StatusCode := 503, Header := [] }) rfl rfl,
   (C9_stage_error_kept_or_wrapped (examplePipelineWith (GoError.plain "boom") 2) rfl
      "app" "" "key" 86400 (GoError.plain "boom")).2.2.2.2.2.2.2.2.1 (some ())
      (some { StatusCode := 200, Header := [] }) rfl rfl rfl⟩

/-! ## The recording step of a goroutine -/

theorem lt_length_of_getElem? (gs : List GPc) (i : Nat) (pc : GPc)
    (h : gs[i]? = some pc) : i < gs.length := by
  by_contra hn
  rw [List.getElem?_eq_none (by omega)] at h
  cases h

theorem printlnArgs_ok (resp : PasswordCredentialResult) (r : HTTPResponse)
    (hr : resp.Response = some r) (h1 : headerLookup r.Header "Request-Id" ≠ [])
    (h2 : headerLookup r.Header "Date" ≠ []) : ∃ v, printlnArgs resp = Except.ok v := by
  cases ha : headerLookup r.Header "Request-Id" with
  | nil => exact absurd ha h1
  | cons a _ =>
    cases hb : headerLookup r.Header "Date" with
    | nil => exact absurd hb h2
    | cons b _ => exact ⟨(a, b), by simp only [printlnArgs, headerFirst, hr, ha, hb]⟩

theorem printlnArgs_indexOutOfRange (resp : PasswordCredentialResult) (r : HTTPResponse)
    (hr : resp.Response = some r)
    (h : headerLookup r.Header "Request-Id" = [] ∨ headerLookup r.Header "Date" = []) :
    printlnArgs resp = Except.error Panic.indexOutOfRange := by
  cases ha : headerLookup r.Header "Request-Id" with
  | nil => simp only [printlnArgs, headerFirst, hr, ha]
  | cons a _ =>
    rcases h with h | h
    · rw [ha] at h
      cases h
    · simp only [printlnArgs, headerFirst, hr, ha, h]

theorem printlnArgs_ok_of_hasBothHeaders (resp : PasswordCredentialResult)
    (h : hasBothHeaders resp = true) : ∃ v, printlnArgs resp = Except.ok v := by
  unfold hasBothHeaders at h
  cases hr : resp.Response with
  | none => simp [hr] at h
  | some r =>
    simp only [hr, Bool.and_eq_true, Bool.not_eq_true', List.isEmpty_eq_false] at h
    exact printlnArgs_ok resp r hr h.1 h.2

/-- C10: from `mutex.Lock()` with the mutex free, a goroutine whose response carries a
value for both `Request-Id` and `Date` runs the recording step to the end without a
panic: exactly one identifier, `to.String(resp.KeyID)` (the empty string for a nil
`KeyID`), is appended to `keyIds` and the mutex is released.  When the response lacks one
of the two headers the identifier is appended all the same and the print then fails with
an index out of range. -/
theorem C10_recording_step (env : Env) (i : Nat) (s : State) (r : HTTPResponse)
    (hpc : s.gs[i]? = some GPc.lock) (hm : s.mutex = none) (hc : s.crashed = none)
    (hr : (env.adds i).1.Response = some r) :
    (headerLookup r.Header "Request-Id" ≠ [] → headerLookup r.Header "Date" ≠ [] →
      ∃ s1, run env (List.replicate 5 (Tid.go i)) s = some s1 ∧
        s1.keyIds = s.keyIds ++ [to.String (env.adds i).1.cred.KeyID] ∧
        ((env.adds i).1.cred.KeyID = none → s1.keyIds = s.keyIds ++ [""]) ∧
        s1.mutex = none ∧ s1.crashed = none ∧ s1.gs[i]? = some (GPc.deferDone none)) ∧
    (headerLookup r.Header "Request-Id" = [] ∨ headerLookup r.Header "Date" = [] →
      ∃ s1, run env (List.replicate 4 (Tid.go i)) s = some s1 ∧
        s1.keyIds = s.keyIds ++ [to.String (env.adds i).1.cred.KeyID] ∧
        s1.gs[i]? = some (GPc.deferUnlock (some Panic.indexOutOfRange))) := by
  have hi := lt_length_of_getElem? _ _ _ hpc
  constructor
  · intro h1 h2
    obtain ⟨v, hv⟩ := printlnArgs_ok _ r hr h1 h2
    refine ⟨{ s with keyIds := s.keyIds ++ [to.String (env.adds i).1.cred.KeyID],
                     gs := s.gs.set i (GPc.deferDone none) }, ?_, rfl, ?_, hm, hc, ?_⟩
    · simp [List.replicate, run, step, stepGo, hpc, hm, hc, List.getElem?_set, hi, hv]
    · intro hk
      simp [hk, to.String]
    · simp [List.getElem?_set, hi]
  · intro h
    have hv := printlnArgs_indexOutOfRange _ r hr h
    refine ⟨{ s with mutex := some i,
                     keyIds := s.keyIds ++ [to.String (env.adds i).1.cred.KeyID],
                     gs := s.gs.set i (GPc.deferUnlock (some Panic.indexOutOfRange)) },
      ?_, rfl, ?_⟩
    · simp [List.replicate, run, step, stepGo, hpc, hm, hc, List.getElem?_set, hi, hv]
    · simp [List.getElem?_set, hi]

/-- C10 at concrete inputs: a response with both headers, and one without `Date`. -/
theorem C10_recording_step_witness :
    (∃ s1, run (exampleEnv false) (List.replicate 5 (Tid.go 0)) atLockState = some s1 ∧
      s1.keyIds = atLockState.keyIds ++ [to.String ((exampleEnv false).adds 0).1.cred.KeyID] ∧
      (((exampleEnv false).adds 0).1.cred.KeyID = none →
        s1.keyIds = atLockState.keyIds ++ [""]) ∧
      s1.mutex = none ∧ s1.crashed = none ∧ s1.gs[0]? = some (GPc.deferDone none)) ∧
    (∃ s1, run exampleEnvNoDate (List.replicate 4 (Tid.go 0)) atLockState = some s1 ∧
      s1.keyIds = atLockState.keyIds ++ [to.String (exampleEnvNoDate.adds 0).1.cred.KeyID] ∧
      s1.gs[0]? = some (GPc.deferUnlock (some Panic.indexOutOfRange))) :=
  ⟨(C10_recording_step (exampleEnv false) 0 atLockState okHTTPResponse rfl rfl rfl rfl).1
      (by decide) (by decide),
   (C10_recording_step exampleEnvNoDate 0 atLockState noDateHTTPResponse rfl rfl rfl rfl).2
      (Or.inr rfl)⟩

/-! ## The invariant of the fan-out: preservation -/

theorem countP_set_add (p : GPc → Bool) (l : List GPc) (i : Nat) (a b : GPc)
    (h : l[i]? = some a) :
    (l.set i b).countP p + (if p a then 1 else 0) = l.countP p + (if p b then 1 else 0) := by
  induction l generalizing i with
  | nil => simp at h
  | cons x rest ih =>
    cases i with
    | zero =>
      simp only [List.getElem?_cons_zero, Option.some.injEq] at h
      subst h
      simp only [List.set_cons_zero, List.countP_cons]
      omega
    | succ n =>
      simp only [List.getElem?_cons_succ] at h
      have := ih n h
      simp only [List.set_cons_succ, List.countP_cons]
      omega

theorem appendedIdsFrom_append (env : Env) (k : Nat) (gs : List GPc) (pc : GPc)
    (h : pc.pastAppend = false) :
    appendedIdsFrom env k (gs ++ [pc]) = appendedIdsFrom env k gs := by
  induction gs generalizing k with
  | nil => simp [appendedIdsFrom, h]
  | cons x rest ih => simp [appendedIdsFrom, ih]

theorem appendedIdsFrom_set_same (env : Env) (k : Nat) (gs : List GPc) (i : Nat)
    (pc pc1 : GPc) (h : gs[i]? = some pc)
    (hsame : (!env.addFailed (k + i) && pc1.pastAppend) = (!env.addFailed (k + i) && pc.pastAppend)) :
    appendedIdsFrom env k (gs.set i pc1) = appendedIdsFrom env k gs := by
  induction gs generalizing k i with
  | nil => simp at h
  | cons x rest ih =>
    cases i with
    | zero =>
      simp only [List.getElem?_cons_zero, Option.some.injEq] at h
      subst h
      simp only [Nat.add_zero] at hsame
      simp only [List.set_cons_zero, appendedIdsFrom, hsame]
    | succ n =>
      simp only [List.getElem?_cons_succ] at h
      have hs : (!env.addFailed (k + 1 + n) && pc1.pastAppend) =
          (!env.addFailed (k + 1 + n) && pc.pastAppend) := by
        have e : k + 1 + n = k + (n + 1) := by omega
        rw [e]
        exact hsame
      simp only [List.set_cons_succ, appendedIdsFrom, ih (k + 1) n h hs]

theorem appendedIdsFrom_set_flip (env : Env) (k : Nat) (gs : List GPc) (i : Nat)
    (pc pc1 : GPc) (h : gs[i]? = some pc) (h0 : pc.pastAppend = false)
    (h1 : pc1.pastAppend = true) (hok : env.addFailed (k + i) = false) :
    (appendedIdsFrom env k gs ++ [env.keyIdOf (k + i)]).Perm
      (appendedIdsFrom env k (gs.set i pc1)) := by
  induction gs generalizing k i with
  | nil => simp at h
  | cons x rest ih =>
    cases i with
    | zero =>
      simp only [List.getElem?_cons_zero, Option.some.injEq] at h
      subst h
      simp only [Nat.add_zero] at hok
      simp only [List.set_cons_zero, appendedIdsFrom, hok, h0, h1, Nat.add_zero, Bool.not_false,
        Bool.and_true, Bool.and_false, if_true, if_false]
      exact (List.perm_append_singleton _ _)
    | succ n =>
      simp only [List.getElem?_cons_succ] at h
      have e : k + 1 + n = k + (n + 1) := by omega
      have hok1 : env.addFailed (k + 1 + n) = false := by rw [e]; exact hok
      have := ih (k + 1) n h hok1
      rw [e] at this
      simp only [List.set_cons_succ, appendedIdsFrom]
      split
      · exact List.Perm.cons _ this
      · exact this

theorem appendedIdsFrom_all_past (env : Env) (k : Nat) (gs : List GPc)
    (h : ∀ pc ∈ gs, pc.pastAppend = true) :
    appendedIdsFrom env k gs =
      ((List.range' k gs.length).filter (fun i => !env.addFailed i)).map env.keyIdOf := by
  induction gs generalizing k with
  | nil => simp [appendedIdsFrom]
  | cons x rest ih =>
    have hx : x.pastAppend = true := h x (by simp)
    have hr := ih (k + 1) (fun pc hpc => h pc (by simp [hpc]))
    simp only [appendedIdsFrom, hx, Bool.and_true, List.length_cons, List.range'_succ,
      List.filter_cons, hr]
    split <;> simp

theorem Inv_initState (env : Env) : Inv env initState := by
  constructor <;> simp [initState, MainPc.spawnedOk, MainPc.addedAhead, appendedIdsFrom,
    MainPc.pastWait]

theorem requireNoError_failed_mono (t t1 : T) (err : Option GoError) (msg : String) (b : Bool)
    (h : requireNoError t err msg = (t1, b)) (hf : t.failed = true) : t1.failed = true := by
  unfold requireNoError at h
  split at h
  · simp only [Prod.mk.injEq] at h
    rw [← h.1]
    exact hf
  · simp only [Prod.mk.injEq] at h
    rw [← h.1]
    rfl

theorem requireNoError_true (t t1 : T) (err : Option GoError) (msg : String)
    (h : requireNoError t err msg = (t1, true)) : err = none ∧ t1 = t := by
  unfold requireNoError at h
  split at h
  · simp only [Prod.mk.injEq, and_true] at h
    exact ⟨rfl, h.symm⟩
  · simp at h

theorem requireNoError_false (t t1 : T) (err : Option GoError) (msg : String)
    (h : requireNoError t err msg = (t1, false)) : err.isSome = true ∧ t1.failed = true := by
  unfold requireNoError at h
  split at h
  · simp at h
  · simp only [Prod.mk.injEq, and_true] at h
    rw [← h]
    exact ⟨rfl, rfl⟩

theorem getElem?_set_cases (gs : List GPc) (i j : Nat) (a pc : GPc)
    (h : (gs.set i a)[j]? = some pc) : (j = i ∧ pc = a) ∨ (j ≠ i ∧ gs[j]? = some pc) := by
  by_cases hij : i = j
  · subst hij
    left
    rw [List.getElem?_set] at h
    simp only [if_true] at h
    split at h
    · exact ⟨rfl, (Option.some.inj h).symm⟩
    · cases h
  · right
    rw [List.getElem?_set_ne hij] at h
    exact ⟨fun e => hij e.symm, h⟩

theorem getElem?_append_singleton_cases (gs : List GPc) (j : Nat) (a pc : GPc)
    (h : (gs ++ [a])[j]? = some pc) : gs[j]? = some pc ∨ (j = gs.length ∧ pc = a) := by
  by_cases hj : j < gs.length
  · left
    rw [List.getElem?_append_left hj] at h
    exact h
  · right
    rw [List.getElem?_append_right (by omega)] at h
    have hz : j - gs.length = 0 := by
      by_contra hne
      rw [List.getElem?_eq_none (by simp; omega)] at h
      cases h
    rw [hz] at h
    simp only [List.getElem?_cons_zero, Option.some.injEq] at h
    exact ⟨by omega, h.symm⟩

theorem Inv_setPc (env : Env) (s : State) (i : Nat) (pc pc1 : GPc) (m1 : Option Nat)
    (w1 : Nat) (k1 : List String) (t1 : T) (ev1 : List Event) (c1 : Option Panic)
    (h : Inv env s) (hpc : s.gs[i]? = some pc)
    (hw : w1 + (if pc.pendingDone then 1 else 0) = s.wg + (if pc1.pendingDone then 1 else 0))
    (hm : pc1.critical = true ↔ m1 = some i)
    (hm2 : ∀ j, j ≠ i → (m1 = some j ↔ s.mutex = some j))
    (hsnap : ∀ old, pc1 = GPc.writeKeyIds old → old = k1)
    (hk : k1 = s.keyIds ∨ pc.critical = true)
    (happ : k1.Perm (appendedIdsFrom env 0 (s.gs.set i pc1)))
    (hsucc : (pc1 = GPc.lock ∨ pc1.accessesKeyIds = true) → env.addFailed i = false)
    (hfail : s.t.failed = true → t1.failed = true)
    (hfail2 : env.addFailed i = true → pc1 ≠ GPc.callAdd → pc1 ≠ GPc.requireNoErr →
      t1.failed = true)
    (hbar : pc1.pendingDone = true → pc.pendingDone = true) :
    Inv env { s with gs := s.gs.set i pc1, mutex := m1, wg := w1, keyIds := k1, t := t1,
                     events := ev1, crashed := c1 } := by
  obtain ⟨h1, h2, h3, h4, h5, h6, h7, h8, h9⟩ := h
  have hi := lt_length_of_getElem? _ _ _ hpc
  refine ⟨?_, ?_, ?_, ?_, ?_, happ, ?_, ?_, ?_⟩
  · simpa using h1
  · have hc := countP_set_add GPc.pendingDone s.gs i pc pc1 hpc
    simp only at hw ⊢
    omega
  · intro j pcj hj
    rcases getElem?_set_cases _ _ _ _ _ hj with ⟨e1, e2⟩ | ⟨hne, hj0⟩
    · subst e1 e2
      exact hm
    · rw [h3 j pcj hj0]
      exact (hm2 j hne).symm
  · intro j hj
    simp only [List.length_set]
    by_cases hji : j = i
    · subst hji
      exact hi
    · exact h4 j ((hm2 j hji).1 hj)
  · intro j old hj
    rcases getElem?_set_cases _ _ _ _ _ hj with ⟨_, e2⟩ | ⟨hne, hj0⟩
    · exact hsnap old e2.symm
    · have ho := h5 j old hj0
      rcases hk with hk | hk
      · rw [hk]
        exact ho
      · have hmi : s.mutex = some i := (h3 i pc hpc).1 hk
        have hmj : s.mutex = some j := (h3 j _ hj0).1 rfl
        rw [hmi] at hmj
        exact absurd (Option.some.inj hmj).symm hne
  · intro j pcj hj hcond
    rcases getElem?_set_cases _ _ _ _ _ hj with ⟨e1, e2⟩ | ⟨_, hj0⟩
    · subst e1 e2
      exact hsucc hcond
    · exact h7 j pcj hj0 hcond
  · intro j pcj hj hf hn1 hn2
    rcases getElem?_set_cases _ _ _ _ _ hj with ⟨e1, e2⟩ | ⟨_, hj0⟩
    · subst e1 e2
      exact hfail2 hf hn1 hn2
    · exact hfail (h8 j pcj hj0 hf hn1 hn2)
  · intro hp pcj hmem
    obtain ⟨j, hj⟩ := List.mem_iff_getElem?.1 hmem
    rcases getElem?_set_cases _ _ _ _ _ hj with ⟨_, e2⟩ | ⟨_, hj0⟩
    · subst e2
      have hold := h9 hp pc (List.mem_iff_getElem?.2 ⟨i, hpc⟩)
      cases hb : pcj.pendingDone with
      | false => rfl
      | true => rw [hbar hb] at hold; cases hold
    · exact h9 hp pcj (List.mem_iff_getElem?.2 ⟨j, hj0⟩)

theorem Inv_crashed (env : Env) (s : State) (c : Option Panic) (h : Inv env s) :
    Inv env { s with crashed := c } :=
  ⟨h.spawned, h.wgCount, h.mutexHolder, h.mutexValid, h.snapshot, h.appended, h.succPath,
    h.failedFlag, h.barrier⟩

theorem Inv_stepGo (env : Env) (i : Nat) (s s1 : State) (h : Inv env s)
    (hs : stepGo env i s = some s1) : Inv env s1 := by
  unfold stepGo at hs
  split at hs
  · cases hs
  · -- callAdd
    rename_i hpc
    simp only [Option.some.injEq] at hs
    subst hs
    refine Inv_setPc env s i _ _ s.mutex s.wg s.keyIds s.t _ s.crashed h hpc (by simp [GPc.pendingDone])
      (by simpa [GPc.critical] using h.mutexHolder i _ hpc) (fun _ _ => Iff.rfl)
      (fun _ e => by cases e) (Or.inl rfl) ?_ (by simp [GPc.accessesKeyIds]) id
      (fun _ _ hn => absurd rfl hn) (fun _ => rfl)
    rw [appendedIdsFrom_set_same env 0 s.gs i _ _ hpc (by simp [GPc.pastAppend])]
    exact h.appended
  · -- requireNoErr
    rename_i hpc
    split at hs
    · rename_i t hreq
      obtain ⟨herr, ht⟩ := requireNoError_true _ _ _ _ hreq
      simp only [Option.some.injEq] at hs
      subst hs
      have hok : env.addFailed i = false := by simp [Env.addFailed, herr]
      refine Inv_setPc env s i _ _ s.mutex s.wg s.keyIds t s.events s.crashed h hpc
        (by simp [GPc.pendingDone])
        (by simpa [GPc.critical] using h.mutexHolder i _ hpc) (fun _ _ => Iff.rfl)
        (fun _ e => by cases e) (Or.inl rfl) ?_ (fun _ => hok) (fun hf => by rw [ht]; exact hf)
        (fun hf => by rw [hok] at hf; cases hf) (fun _ => rfl)
      rw [appendedIdsFrom_set_same env 0 s.gs i _ _ hpc (by simp [GPc.pastAppend])]
      exact h.appended
    · rename_i t hreq
      obtain ⟨herr, ht⟩ := requireNoError_false _ _ _ _ hreq
      simp only [Option.some.injEq] at hs
      subst hs
      have hbad : env.addFailed i = true := herr
      refine Inv_setPc env s i _ _ s.mutex s.wg s.keyIds t s.events s.crashed h hpc
        (by simp [GPc.pendingDone])
        (by simpa [GPc.critical] using h.mutexHolder i _ hpc) (fun _ _ => Iff.rfl)
        (fun _ e => by cases e) (Or.inl rfl) ?_ (by simp [GPc.accessesKeyIds]) (fun _ => ht)
        (fun _ _ _ => ht) (fun _ => rfl)
      rw [appendedIdsFrom_set_same env 0 s.gs i _ _ hpc (by simp [hbad])]
      exact h.appended
  · -- lock
    rename_i hpc
    split at hs
    · rename_i hmu
      simp only [Option.some.injEq] at hs
      subst hs
      have hok := h.succPath i _ hpc (Or.inl rfl)
      refine Inv_setPc env s i _ _ (some i) s.wg s.keyIds s.t s.events s.crashed h hpc
        (by simp [GPc.pendingDone]) (by simp [GPc.critical]) ?_
        (fun _ e => by cases e) (Or.inl rfl) ?_ (fun _ => hok) id
        (fun hf => by rw [hok] at hf; cases hf) (fun _ => rfl)
      · intro j hj
        rw [hmu]
        constructor
        · intro e
          exact absurd (Option.some.inj e).symm hj
        · intro e
          cases e
      · rw [appendedIdsFrom_set_same env 0 s.gs i _ _ hpc (by simp [GPc.pastAppend])]
        exact h.appended
    · cases hs
  · -- readKeyIds
    rename_i hpc
    simp only [Option.some.injEq] at hs
    subst hs
    have hok := h.succPath i _ hpc (Or.inr rfl)
    refine Inv_setPc env s i _ _ s.mutex s.wg s.keyIds s.t s.events s.crashed h hpc
      (by simp [GPc.pendingDone])
      (by simpa [GPc.critical] using h.mutexHolder i _ hpc) (fun _ _ => Iff.rfl)
      (fun _ e => by cases e; rfl) (Or.inl rfl) ?_ (fun _ => hok) id
      (fun hf => by rw [hok] at hf; cases hf) (fun _ => rfl)
    rw [appendedIdsFrom_set_same env 0 s.gs i _ _ hpc (by simp [GPc.pastAppend])]
    exact h.appended
  · -- writeKeyIds
    rename_i old hpc
    simp only [Option.some.injEq] at hs
    subst hs
    have hok := h.succPath i _ hpc (Or.inr rfl)
    have hold := h.snapshot i old hpc
    refine Inv_setPc env s i _ _ s.mutex s.wg _ s.t s.events s.crashed h hpc
      (by simp [GPc.pendingDone])
      (by simpa [GPc.critical] using h.mutexHolder i _ hpc) (fun _ _ => Iff.rfl)
      (fun _ e => by cases e) (Or.inr rfl) ?_ (by simp [GPc.accessesKeyIds]) id
      (fun hf => by rw [hok] at hf; cases hf) (fun _ => rfl)
    have hflip := appendedIdsFrom_set_flip env 0 s.gs i _ GPc.println hpc rfl rfl
      (by rw [Nat.zero_add]; exact hok)
    rw [Nat.zero_add] at hflip
    rw [hold]
    exact (h.appended.append_right _).trans hflip
  · -- println
    rename_i hpc
    have hmh := h.mutexHolder i _ hpc
    split at hs
    all_goals
      simp only [Option.some.injEq] at hs
      subst hs
      refine Inv_setPc env s i _ _ s.mutex s.wg s.keyIds s.t s.events s.crashed h hpc
        (by simp [GPc.pendingDone])
        (by simpa [GPc.critical] using hmh) (fun _ _ => Iff.rfl)
        (fun _ e => by cases e) (Or.inl rfl) ?_ (by simp [GPc.accessesKeyIds]) id
        (fun hf _ _ => h.failedFlag i _ hpc hf (by simp) (by simp)) (fun _ => rfl)
      rw [appendedIdsFrom_set_same env 0 s.gs i _ _ hpc (by simp [GPc.pastAppend])]
      exact h.appended
  · -- deferUnlock
    rename_i panicking hpc
    have hmi : s.mutex = some i := (h.mutexHolder i _ hpc).1 rfl
    split at hs
    · simp only [Option.some.injEq] at hs
      subst hs
      exact Inv_crashed env s _ h
    · simp only [Option.some.injEq] at hs
      subst hs
      refine Inv_setPc env s i _ _ none s.wg s.keyIds s.t s.events s.crashed h hpc
        (by simp [GPc.pendingDone]) (by simp [GPc.critical]) ?_
        (fun _ e => by cases e) (Or.inl rfl) ?_ (by simp [GPc.accessesKeyIds]) id
        (fun hf _ _ => h.failedFlag i _ hpc hf (by simp) (by simp)) (fun _ => rfl)
      · intro j hj
        rw [hmi]
        constructor
        · intro e
          cases e
        · intro e
          exact absurd (Option.some.inj e).symm hj
      · rw [appendedIdsFrom_set_same env 0 s.gs i _ _ hpc (by simp [GPc.pastAppend])]
        exact h.appended
  · -- deferDone
    rename_i panicking hpc
    have hmh := h.mutexHolder i _ hpc
    split at hs
    · simp only [Option.some.injEq] at hs
      subst hs
      exact Inv_crashed env s _ h
    · rename_i hwg
      split at hs
      all_goals
        simp only [Option.some.injEq] at hs
        subst hs
        refine Inv_setPc env s i _ _ s.mutex (s.wg - 1) s.keyIds s.t s.events s.crashed h hpc
          (by simp [GPc.pendingDone]; omega)
          (by simpa [GPc.critical] using hmh) (fun _ _ => Iff.rfl)
          (fun _ e => by cases e) (Or.inl rfl) ?_ (by simp [GPc.accessesKeyIds]) id
          (fun hf _ _ => h.failedFlag i _ hpc hf (by simp) (by simp)) (fun hp => by cases hp)
        rw [appendedIdsFrom_set_same env 0 s.gs i _ _ hpc (by simp [GPc.pastAppend])]
        exact h.appended
  · -- crash
    simp only [Option.some.injEq] at hs
    subst hs
    exact Inv_crashed env s _ h
  · cases hs

theorem Inv_mainLocal (env : Env) (s : State) (pc1 : MainPc) (t1 : T) (ev1 : List Event)
    (h : Inv env s) (hpast : s.mainPc.pastWait = true) (hpast1 : pc1.pastWait = true)
    (hfail : s.t.failed = true → t1.failed = true) :
    Inv env { s with mainPc := pc1, t := t1, events := ev1 } := by
  obtain ⟨h1, h2, h3, h4, h5, h6, h7, h8, h9⟩ := h
  have hsp : ∀ pc : MainPc, pc.pastWait = true → ∀ n, pc.spawnedOk env.count n ↔ n = env.count := by
    intro pc hp n
    cases pc <;> simp [MainPc.pastWait] at hp <;> simp [MainPc.spawnedOk]
  have had : ∀ pc : MainPc, pc.pastWait = true → pc.addedAhead = 0 := by
    intro pc hp
    cases pc <;> simp [MainPc.pastWait] at hp <;> rfl
  refine ⟨?_, ?_, h3, h4, h5, h6, h7, ?_, fun _ => h9 hpast⟩
  · exact (hsp pc1 hpast1 _).2 ((hsp _ hpast _).1 h1)
  · simp only [had pc1 hpast1]
    rw [had _ hpast] at h2
    exact h2
  · intro j pcj hj hf hn1 hn2
    exact hfail (h8 j pcj hj hf hn1 hn2)

theorem Inv_stepMain (env : Env) (s s1 : State) (h : Inv env s)
    (hs : stepMain env s = some s1) : Inv env s1 := by
  unfold stepMain at hs
  split at hs
  · -- loopHead
    rename_i i hpc
    obtain ⟨h1, h2, h3, h4, h5, h6, h7, h8, h9⟩ := h
    split at hs
    · rename_i hlt
      simp only [Option.some.injEq] at hs
      subst hs
      simp only [hpc, MainPc.spawnedOk, MainPc.addedAhead, MainPc.pastWait] at *
      refine ⟨?_, ?_, h3, h4, h5, h6, h7, h8, ?_⟩
      · simp only [MainPc.spawnedOk, Env.count] at *
        omega
      · simp only [MainPc.addedAhead]
        omega
      · simp [MainPc.pastWait]
    · rename_i hlt
      simp only [Option.some.injEq] at hs
      subst hs
      simp only [hpc, MainPc.spawnedOk, MainPc.addedAhead, MainPc.pastWait] at *
      refine ⟨?_, ?_, h3, h4, h5, h6, h7, h8, ?_⟩
      · simp only [MainPc.spawnedOk, Env.count] at *
        omega
      · simp only [MainPc.addedAhead]
        omega
      · simp [MainPc.pastWait]
  · -- goStmt
    rename_i i hpc
    obtain ⟨h1, h2, h3, h4, h5, h6, h7, h8, h9⟩ := h
    simp only [Option.some.injEq] at hs
    subst hs
    simp only [hpc, MainPc.spawnedOk, MainPc.addedAhead, MainPc.pastWait] at *
    refine ⟨?_, ?_, ?_, ?_, ?_, ?_, ?_, ?_, ?_⟩
    · simp only [MainPc.spawnedOk, List.length_append, List.length_singleton]
      omega
    · simp only [MainPc.addedAhead, List.countP_append, List.countP_cons, List.countP_nil,
        GPc.pendingDone]
      simpa using h2
    · intro j pcj hj
      rcases getElem?_append_singleton_cases _ _ _ _ hj with hj0 | ⟨e1, e2⟩
      · exact h3 j pcj hj0
      · subst e2
        simp only [GPc.critical, Bool.false_eq_true, false_iff]
        intro hm
        have := h4 j hm
        omega
    · intro j hj
      have := h4 j hj
      simp only [List.length_append, List.length_singleton]
      omega
    · intro j old hj
      rcases getElem?_append_singleton_cases _ _ _ _ hj with hj0 | ⟨_, e2⟩
      · exact h5 j old hj0
      · cases e2
    · rw [appendedIdsFrom_append env 0 s.gs GPc.callAdd rfl]
      exact h6
    · intro j pcj hj hcond
      rcases getElem?_append_singleton_cases _ _ _ _ hj with hj0 | ⟨_, e2⟩
      · exact h7 j pcj hj0 hcond
      · subst e2
        simp [GPc.accessesKeyIds] at hcond
    · intro j pcj hj hf hn1 hn2
      rcases getElem?_append_singleton_cases _ _ _ _ hj with hj0 | ⟨_, e2⟩
      · exact h8 j pcj hj0 hf hn1 hn2
      · exact absurd e2 hn1
    · simp [MainPc.pastWait]
  · -- wait
    rename_i hpc
    obtain ⟨h1, h2, h3, h4, h5, h6, h7, h8, h9⟩ := h
    split at hs
    · rename_i hwg
      simp only [Option.some.injEq] at hs
      subst hs
      simp only [hpc, MainPc.spawnedOk, MainPc.addedAhead, MainPc.pastWait] at *
      refine ⟨h1, h2, h3, h4, h5, h6, h7, h8, ?_⟩
      intro _ pc hmem
      have hz : s.gs.countP GPc.pendingDone = 0 := by omega
      rw [List.countP_eq_zero] at hz
      simpa using hz pc hmem
    · cases hs
  · -- sleep
    rename_i hpc
    simp only [Option.some.injEq] at hs
    subst hs
    exact Inv_mainLocal env s _ s.t _ h (by rw [hpc]; rfl) rfl id
  · -- getApp
    rename_i hpc
    split at hs
    all_goals
      rename_i t hreq
      simp only [Option.some.injEq] at hs
      subst hs
      exact Inv_mainLocal env s _ t _ h (by rw [hpc]; rfl) rfl
        (requireNoError_failed_mono _ _ _ _ _ hreq)
  · -- collect
    rename_i hpc
    split at hs
    · simp only [Option.some.injEq] at hs
      subst hs
      exact Inv_crashed env s _ h
    · simp only [Option.some.injEq] at hs
      subst hs
      exact Inv_mainLocal env s _ s.t s.events h (by rw [hpc]; rfl) rfl id
  · -- verify
    rename_i found hpc
    simp only [Option.some.injEq] at hs
    subst hs
    exact Inv_mainLocal env s _ _ _ h (by rw [hpc]; rfl) rfl
      (verifyLoop_failed_mono _ _ _)
  · cases hs
  · cases hs

theorem Inv_step (env : Env) (tid : Tid) (s s1 : State) (h : Inv env s)
    (hs : step env tid s = some s1) : Inv env s1 := by
  unfold step at hs
  split at hs
  · cases hs
  · cases tid with
    | main => exact Inv_stepMain env s s1 h hs
    | go i => exact Inv_stepGo env i s s1 h hs

theorem Inv_run (env : Env) (sched : List Tid) (s s1 : State) (h : Inv env s)
    (hs : run env sched s = some s1) : Inv env s1 := by
  induction sched generalizing s with
  | nil =>
    simp only [run, Option.some.injEq] at hs
    subst hs
    exact h
  | cons tid rest ih =>
    simp only [run] at hs
    split at hs
    · cases hs
    · rename_i s2 hstep
      exact ih s2 (Inv_step env tid s s2 h hstep) hs

theorem Inv_of_run (env : Env) (sched : List Tid) (s : State)
    (hs : run env sched initState = some s) : Inv env s :=
  Inv_run env sched initState s (Inv_initState env) hs

/-! ## Consequences of the invariant once `wg.Wait` has returned -/

theorem pastAppend_of_not_pending (pc : GPc) (h : pc.pendingDone = false) :
    pc.pastAppend = true := by
  cases pc <;> simp [GPc.pendingDone] at h <;> rfl

theorem length_of_pastWait (env : Env) (s : State) (h : Inv env s)
    (hpast : s.mainPc.pastWait = true) : s.gs.length = env.count := by
  have h1 := h.spawned
  cases hpc : s.mainPc <;> rw [hpc] at hpast h1 <;> simp [MainPc.pastWait] at hpast <;>
    simpa [MainPc.spawnedOk] using h1

theorem keyIds_perm_succeededIds (env : Env) (sched : List Tid) (s : State)
    (hrun : run env sched initState = some s) (hpast : s.mainPc.pastWait = true) :
    s.keyIds.Perm env.succeededIds := by
  have hI := Inv_of_run env sched s hrun
  have hall := hI.barrier hpast
  have hlen := length_of_pastWait env s hI hpast
  have happ := appendedIdsFrom_all_past env 0 s.gs
    (fun pc hpc => pastAppend_of_not_pending pc (hall pc hpc))
  rw [hlen, ← List.range_eq_range'] at happ
  have := hI.appended
  rw [happ] at this
  exact this

theorem succeededIds_length (env : Env) :
    env.succeededIds.length + env.failedAdds = env.count := by
  have h := List.length_eq_length_filter_add (l := List.range env.count) env.addFailed
  simp only [List.length_range] at h
  simp only [Env.succeededIds, Env.failedAdds, List.length_map]
  omega

theorem succeededIds_eq_returnedIds (env : Env) (h : env.failedAdds = 0) :
    env.succeededIds = env.returnedIds := by
  have hnil : (List.range env.count).filter env.addFailed = [] :=
    List.length_eq_zero.mp h
  rw [List.filter_eq_nil_iff] at hnil
  have hself : (List.range env.count).filter (fun i => !env.addFailed i) =
      List.range env.count := by
    rw [List.filter_eq_self]
    intro i hi
    simpa using hnil i hi
  simp only [Env.succeededIds, Env.returnedIds, hself]

/-- C3: once `wg.Wait` has returned, in every schedule, the number of key identifiers in
`keyIds` plus the number of failed calls is the number of goroutines; when no call
failed, `keyIds` is a permutation of the identifiers the calls returned, so it has that
many entries and has no duplicate when the returned identifiers have none. -/
theorem C3_outcomes_add_up_to_count (env : Env) (sched : List Tid) (s : State)
    (hcount : 1 ≤ env.parallelRequests)
    (hrun : run env sched initState = some s) (hpast : s.mainPc.pastWait = true) :
    (env.count : Int) = env.parallelRequests ∧
    s.keyIds.length + env.failedAdds = env.count ∧
    (env.failedAdds = 0 →
      s.keyIds.Perm env.returnedIds ∧ s.keyIds.length = env.count ∧
        (env.returnedIds.Nodup → s.keyIds.Nodup)) := by
  have hperm := keyIds_perm_succeededIds env sched s hrun hpast
  have hlen := succeededIds_length env
  refine ⟨?_, ?_, ?_⟩
  · simp only [Env.count]
    omega
  · rw [hperm.length_eq]
    exact hlen
  · intro h0
    rw [succeededIds_eq_returnedIds env h0] at hperm
    refine ⟨hperm, ?_, fun hnd => hperm.nodup_iff.2 hnd⟩
    rw [hperm.length_eq]
    simp [Env.returnedIds]

/-- C3 at concrete inputs: two goroutines, both calls succeeding, and one failing. -/
theorem C3_outcomes_add_up_to_count_witness :
    run (exampleEnv false) scheduleAllOk initState = some finalAllOk ∧
    finalAllOk.keyIds.length + (exampleEnv false).failedAdds = 2 ∧
    finalAllOk.keyIds.Perm ["k0", "k1"] ∧
    finalOneFails.keyIds.length + (exampleEnv true).failedAdds = 2 :=
  ⟨rfl,
   (C3_outcomes_add_up_to_count (exampleEnv false) scheduleAllOk finalAllOk (by decide) rfl
      rfl).2.1,
   ((C3_outcomes_add_up_to_count (exampleEnv false) scheduleAllOk finalAllOk (by decide) rfl
      rfl).2.2 rfl).1,
   (C3_outcomes_add_up_to_count (exampleEnv true) scheduleOneFails finalOneFails (by decide) rfl
      rfl).2.1⟩

/-- C5 fails on the code: with two goroutines of which the first fails while the second is
in flight, the failing goroutine marks the test failed and ends, the second goroutine
runs to completion and appends its key, and the test goroutine then performs the settling
sleep, the second `GetApplication` and the membership assertions: the failure does not
abort the test. -/
theorem C5_failed_add_does_not_abort_the_test :
    (exampleEnv true).addFailed 0 = true ∧
    run (exampleEnv true) (scheduleOneFails.take 10) initState =
      some { mainPc := MainPc.wait, gs := [GPc.exited, GPc.lock], wg := 1,
             mutex := none, keyIds := [],
             t := { failed := true,
                    reports := [Report.noError (GoError.plain "transport")
                      "error adding password"] },
             events := [Event.addReturned 1, Event.addReturned 0], crashed := none } ∧
    run (exampleEnv true) scheduleOneFails initState = some finalOneFails ∧
    finalOneFails.t.failed = true ∧
    finalOneFails.mainPc = MainPc.done ∧
    finalOneFails.keyIds = ["k1"] ∧
    finalOneFails.events = [Event.addReturned 1, Event.addReturned 0, Event.settleSleep,
      Event.secondGetApplication, Event.membershipAssertions] :=
  ⟨rfl, rfl, rfl, rfl, rfl, rfl, rfl⟩

/-! ## Progress: runs are bounded and, without a panic, reach the return of `wg.Wait` -/

theorem sum_remaining_set (l : List GPc) (i : Nat) (a b : GPc) (h : l[i]? = some a) :
    ((l.set i b).map GPc.remaining).sum + a.remaining =
      (l.map GPc.remaining).sum + b.remaining := by
  induction l generalizing i with
  | nil => simp at h
  | cons x rest ih =>
    cases i with
    | zero =>
      simp only [List.getElem?_cons_zero, Option.some.injEq] at h
      subst h
      simp only [List.set_cons_zero, List.map_cons, List.sum_cons]
      omega
    | succ n =>
      simp only [List.getElem?_cons_succ] at h
      have := ih n h
      simp only [List.set_cons_succ, List.map_cons, List.sum_cons]
      omega

theorem stepGo_shape (env : Env) (i : Nat) (s s1 : State) (hs : stepGo env i s = some s1) :
    (∃ p, s1 = { s with crashed := some p }) ∨
    (∃ pc pc1, s.gs[i]? = some pc ∧ s1.gs = s.gs.set i pc1 ∧
      pc1.remaining < pc.remaining ∧ s1.mainPc = s.mainPc ∧ s1.crashed = s.crashed) := by
  unfold stepGo at hs
  split at hs
  case h_1 => cases hs
  case h_8 p hpc =>
    split at hs
    · cases hs
      exact Or.inl ⟨_, rfl⟩
    · cases hs
      exact Or.inr ⟨_, _, hpc, rfl, by simp [GPc.remaining], rfl, rfl⟩
  case h_9 p hpc =>
    split at hs
    · cases hs
      exact Or.inl ⟨_, rfl⟩
    · split at hs <;> cases hs <;>
        exact Or.inr ⟨_, _, hpc, rfl, by simp [GPc.remaining], rfl, rfl⟩
  case h_10 p hpc =>
    cases hs
    exact Or.inl ⟨_, rfl⟩
  case h_11 => cases hs
  all_goals
    rename_i hpc
    repeat' split at hs
    all_goals
      cases hs <;>
        exact Or.inr ⟨_, _, hpc, rfl, by simp [GPc.remaining], rfl, rfl⟩

theorem fuel_stepGo (env : Env) (i : Nat) (s s1 : State) (hc : s.crashed = none)
    (hs : stepGo env i s = some s1) : fuel env s1 < fuel env s := by
  rcases stepGo_shape env i s s1 hs with ⟨p, rfl⟩ | ⟨pc, pc1, hpc, hgs, hlt, hm, hcr⟩
  · simp [fuel, hc]
  · have hsum := sum_remaining_set s.gs i pc pc1 hpc
    simp only [fuel, hcr, hc, hgs, hm]
    omega

theorem fuel_stepMain (env : Env) (s s1 : State) (hc : s.crashed = none)
    (hs : stepMain env s = some s1) : fuel env s1 < fuel env s := by
  unfold stepMain at hs
  split at hs
  · rename_i i hpc
    split at hs
    · rename_i hlt
      cases hs
      simp only [fuel, hc, hpc, MainPc.remaining, Env.count] at *
      have : i < env.parallelRequests.toNat := by omega
      have e : (env.parallelRequests.toNat - i) = (env.parallelRequests.toNat - i - 1) + 1 := by
        omega
      rw [e]
      omega
    · cases hs
      simp only [fuel, hc, hpc, MainPc.remaining]
      omega
  · rename_i i hpc
    cases hs
    simp only [fuel, hc, hpc, MainPc.remaining, List.map_append, List.sum_append,
      List.map_cons, List.map_nil, List.sum_cons, List.sum_nil, GPc.remaining]
    have e : env.count - (i + 1) = env.count - i - 1 := by omega
    rw [e]
    omega
  · rename_i hpc
    split at hs
    · cases hs
      simp only [fuel, hc, hpc, MainPc.remaining]
      omega
    · cases hs
  · rename_i hpc
    cases hs
    simp only [fuel, hc, hpc, MainPc.remaining]
    omega
  · rename_i hpc
    split at hs <;> cases hs <;> simp only [fuel, hc, hpc, MainPc.remaining] <;> omega
  · rename_i hpc
    split at hs
    · cases hs
      simp [fuel, hc]
    · cases hs
      simp only [fuel, hc, hpc, MainPc.remaining]
      omega
  · rename_i found hpc
    cases hs
    simp only [fuel, hc, hpc, MainPc.remaining]
    omega
  · cases hs
  · cases hs

theorem fuel_step (env : Env) (tid : Tid) (s s1 : State)
    (hs : step env tid s = some s1) : fuel env s1 < fuel env s := by
  unfold step at hs
  split at hs
  · cases hs
  · rename_i hc
    cases tid with
    | main => exact fuel_stepMain env s s1 hc hs
    | go i => exact fuel_stepGo env i s s1 hc hs

theorem run_length_add_fuel (env : Env) (sched : List Tid) (s s1 : State)
    (hs : run env sched s = some s1) : sched.length + fuel env s1 ≤ fuel env s := by
  induction sched generalizing s with
  | nil =>
    simp only [run, Option.some.injEq] at hs
    subst hs
    simp
  | cons tid rest ih =>
    simp only [run] at hs
    split at hs
    · cases hs
    · rename_i s2 hstep
      have h1 := ih s2 hs
      have h2 := fuel_step env tid s s2 hstep
      simp only [List.length_cons]
      omega

theorem fuel_initState (env : Env) : fuel env initState = 11 * env.count + 7 := by
  simp [fuel, initState, MainPc.remaining]
  omega

theorem exists_pending_of_countP_pos (gs : List GPc) (h : 0 < gs.countP GPc.pendingDone) :
    ∃ (i : Nat) (pc : GPc), gs[i]? = some pc ∧ pc.pendingDone = true := by
  obtain ⟨pc, hmem, hp⟩ := List.countP_pos_iff.1 h
  obtain ⟨i, hi⟩ := List.mem_iff_getElem?.1 hmem
  exact ⟨i, pc, hi, hp⟩

theorem stepGo_enabled (env : Env) (i : Nat) (s : State) (pc : GPc)
    (hpc : s.gs[i]? = some pc) (hp : pc.pendingDone = true)
    (hlock : pc = GPc.lock → s.mutex = none) : ∃ s1, stepGo env i s = some s1 := by
  unfold stepGo
  rw [hpc]
  cases pc with
  | callAdd => exact ⟨_, rfl⟩
  | requireNoErr =>
    simp only
    split <;> exact ⟨_, rfl⟩
  | lock =>
    simp only [hlock rfl]
    exact ⟨_, rfl⟩
  | readKeyIds => exact ⟨_, rfl⟩
  | writeKeyIds old => exact ⟨_, rfl⟩
  | println =>
    simp only
    split <;> exact ⟨_, rfl⟩
  | deferUnlock p =>
    simp only
    split <;> exact ⟨_, rfl⟩
  | deferDone p =>
    simp only
    split
    · exact ⟨_, rfl⟩
    · split <;> exact ⟨_, rfl⟩
  | crash p => cases hp
  | exited => cases hp

theorem progress_before_wait (env : Env) (s : State) (hI : Inv env s)
    (hc : s.crashed = none) (hp : s.mainPc.pastWait = false) :
    ∃ tid s1, step env tid s = some s1 := by
  have hstep : ∀ tid, step env tid s =
      match tid with
      | Tid.main => stepMain env s
      | Tid.go i => stepGo env i s := by
    intro tid
    simp only [step, hc]
  cases hpc : s.mainPc with
  | loopHead i =>
    refine ⟨Tid.main, ?_⟩
    rw [hstep]
    simp only [stepMain, hpc]
    split <;> exact ⟨_, rfl⟩
  | goStmt i =>
    refine ⟨Tid.main, ?_⟩
    rw [hstep]
    simp only [stepMain, hpc]
    exact ⟨_, rfl⟩
  | wait =>
    by_cases hwg : s.wg = 0
    · refine ⟨Tid.main, ?_⟩
      rw [hstep]
      simp only [stepMain, hpc, hwg, if_true]
      exact ⟨_, rfl⟩
    · have hcount : 0 < s.gs.countP GPc.pendingDone := by
        have := hI.wgCount
        rw [hpc] at this
        simp only [MainPc.addedAhead] at this
        omega
      obtain ⟨i, pc, hi, hpend⟩ := exists_pending_of_countP_pos s.gs hcount
      cases hm : s.mutex with
      | none =>
        obtain ⟨s1, h1⟩ := stepGo_enabled env i s pc hi hpend (fun _ => hm)
        exact ⟨Tid.go i, s1, by rw [hstep]; exact h1⟩
      | some j =>
        have hj := hI.mutexValid j hm
        have hget : s.gs[j]? = some s.gs[j] := List.getElem?_eq_getElem hj
        have hcrit := (hI.mutexHolder j _ hget).2 hm
        have hpj : (s.gs[j]).pendingDone = true := by
          cases hx : s.gs[j] <;> rw [hx] at hcrit <;> simp [GPc.critical] at hcrit <;> rfl
        obtain ⟨s1, h1⟩ := stepGo_enabled env j s _ hget hpj
          (fun e => by rw [e] at hcrit; cases hcrit)
        exact ⟨Tid.go j, s1, by rw [hstep]; exact h1⟩
  | sleep => rw [hpc] at hp; cases hp
  | getApp => rw [hpc] at hp; cases hp
  | collect => rw [hpc] at hp; cases hp
  | verify f => rw [hpc] at hp; cases hp
  | done => rw [hpc] at hp; cases hp
  | aborted => rw [hpc] at hp; cases hp

theorem length_le_count (env : Env) (s : State) (hI : Inv env s) : s.gs.length ≤ env.count := by
  have h := hI.spawned
  cases hpc : s.mainPc <;> rw [hpc] at h <;> simp only [MainPc.spawnedOk] at h <;> omega

theorem NoPanic_initState (env : Env) : NoPanic env initState := by
  constructor <;> simp [initState]

theorem NoPanic_setPc (env : Env) (s : State) (i : Nat) (pc1 : GPc) (m1 : Option Nat)
    (w1 : Nat) (k1 : List String) (t1 : T) (ev1 : List Event)
    (hN : NoPanic env s) (hcalm : pc1.panicking = false)
    (hprint : pc1 = GPc.println → env.addFailed i = false) :
    NoPanic env { s with gs := s.gs.set i pc1, mutex := m1, wg := w1, keyIds := k1, t := t1,
                         events := ev1 } := by
  refine ⟨?_, ?_, hN.alive⟩
  · intro j pcj hj
    rcases getElem?_set_cases _ _ _ _ _ hj with ⟨_, e2⟩ | ⟨_, hj0⟩
    · rw [e2]
      exact hcalm
    · exact hN.calm j pcj hj0
  · intro j hj
    rcases getElem?_set_cases _ _ _ _ _ hj with ⟨e1, e2⟩ | ⟨_, hj0⟩
    · rw [e1]
      exact hprint e2.symm
    · exact hN.printsOk j hj0

theorem NoPanic_stepGo (env : Env) (i : Nat) (s s1 : State) (hh : env.headersPresent)
    (hI : Inv env s) (hN : NoPanic env s) (hs : stepGo env i s = some s1) :
    NoPanic env s1 := by
  unfold stepGo at hs
  split at hs
  · cases hs
  · cases hs
    exact NoPanic_setPc env s i _ s.mutex s.wg s.keyIds s.t _ hN rfl (fun e => by cases e)
  · split at hs <;> cases hs <;>
      exact NoPanic_setPc env s i _ s.mutex s.wg s.keyIds _ s.events hN rfl
        (fun e => by cases e)
  · split at hs
    · cases hs
      exact NoPanic_setPc env s i _ (some i) s.wg s.keyIds s.t s.events hN rfl
        (fun e => by cases e)
    · cases hs
  · cases hs
    exact NoPanic_setPc env s i _ s.mutex s.wg s.keyIds s.t s.events hN rfl
      (fun e => by cases e)
  · rename_i old hpc
    cases hs
    exact NoPanic_setPc env s i _ s.mutex s.wg _ s.t s.events hN rfl
      (fun _ => hI.succPath i _ hpc (Or.inr rfl))
  · rename_i hpc
    split at hs
    · cases hs
      exact NoPanic_setPc env s i _ s.mutex s.wg s.keyIds s.t s.events hN rfl
        (fun e => by cases e)
    · rename_i p herr
      exfalso
      have hi : i < env.count :=
        Nat.lt_of_lt_of_le (lt_length_of_getElem? _ _ _ hpc) (length_le_count env s hI)
      obtain ⟨v, hv⟩ := printlnArgs_ok_of_hasBothHeaders _ (hh i hi (hN.printsOk i hpc))
      rw [hv] at herr
      cases herr
  · rename_i p hpc
    have hp : p = none := by
      have := hN.calm i _ hpc
      cases p with
      | none => rfl
      | some q => cases this
    subst hp
    split at hs
    · rename_i hmu
      have := (hI.mutexHolder i _ hpc).1 rfl
      rw [hmu] at this
      cases this
    · cases hs
      exact NoPanic_setPc env s i _ none s.wg s.keyIds s.t s.events hN rfl
        (fun e => by cases e)
  · rename_i p hpc
    have hp : p = none := by
      have := hN.calm i _ hpc
      cases p with
      | none => rfl
      | some q => cases this
    subst hp
    split at hs
    · rename_i hwg
      exfalso
      have hpos : 0 < s.gs.countP GPc.pendingDone :=
        List.countP_pos_iff.2 ⟨_, List.mem_iff_getElem?.2 ⟨i, hpc⟩, rfl⟩
      have := hI.wgCount
      omega
    · simp only at hs
      cases hs
      exact NoPanic_setPc env s i _ s.mutex (s.wg - 1) s.keyIds s.t s.events hN rfl
        (fun e => by cases e)
  · rename_i p hpc
    have := hN.calm i _ hpc
    cases this
  · cases hs

theorem NoPanic_stepMain (env : Env) (s s1 : State) (hN : NoPanic env s)
    (hs : stepMain env s = some s1) : NoPanic env s1 := by
  unfold stepMain at hs
  split at hs
  · rename_i i hpc
    have ha := hN.alive (by rw [hpc]; rfl)
    split at hs <;> cases hs <;> exact ⟨hN.calm, hN.printsOk, fun _ => ha⟩
  · rename_i i hpc
    have ha := hN.alive (by rw [hpc]; rfl)
    cases hs
    refine ⟨?_, ?_, fun _ => ha⟩
    · intro j pcj hj
      rcases getElem?_append_singleton_cases _ _ _ _ hj with hj0 | ⟨_, e2⟩
      · exact hN.calm j pcj hj0
      · rw [e2]
        rfl
    · intro j hj
      rcases getElem?_append_singleton_cases _ _ _ _ hj with hj0 | ⟨_, e2⟩
      · exact hN.printsOk j hj0
      · cases e2
  · split at hs
    · cases hs
      exact ⟨hN.calm, hN.printsOk, fun h => by cases h⟩
    · cases hs
  · cases hs
    exact ⟨hN.calm, hN.printsOk, fun h => by cases h⟩
  · split at hs <;> cases hs <;> exact ⟨hN.calm, hN.printsOk, fun h => by cases h⟩
  · rename_i hpc
    split at hs
    · cases hs
      exact ⟨hN.calm, hN.printsOk, fun h => by simp only [hpc] at h; cases h⟩
    · cases hs
      exact ⟨hN.calm, hN.printsOk, fun h => by cases h⟩
  · cases hs
    exact ⟨hN.calm, hN.printsOk, fun h => by cases h⟩
  · cases hs
  · cases hs

theorem NoPanic_step (env : Env) (tid : Tid) (s s1 : State) (hh : env.headersPresent)
    (hI : Inv env s) (hN : NoPanic env s) (hs : step env tid s = some s1) :
    NoPanic env s1 := by
  unfold step at hs
  split at hs
  · cases hs
  · cases tid with
    | main => exact NoPanic_stepMain env s s1 hN hs
    | go i => exact NoPanic_stepGo env i s s1 hh hI hN hs

theorem NoPanic_run (env : Env) (sched : List Tid) (s s1 : State) (hh : env.headersPresent)
    (hI : Inv env s) (hN : NoPanic env s) (hs : run env sched s = some s1) :
    NoPanic env s1 := by
  induction sched generalizing s with
  | nil =>
    simp only [run, Option.some.injEq] at hs
    subst hs
    exact hN
  | cons tid rest ih =>
    simp only [run] at hs
    split at hs
    · cases hs
    · rename_i s2 hstep
      exact ih s2 (Inv_step env tid s s2 hI hstep) (NoPanic_step env tid s s2 hh hI hN hstep) hs

theorem run_append (env : Env) (a b : List Tid) (s s1 : State)
    (h : run env a s = some s1) : run env (a ++ b) s = run env b s1 := by
  induction a generalizing s with
  | nil =>
    simp only [run, Option.some.injEq] at h
    subst h
    rfl
  | cons tid rest ih =>
    cases hstep : step env tid s with
    | none => simp [run, hstep] at h
    | some s2 =>
      simp only [run, List.cons_append, hstep] at h ⊢
      exact ih s2 h

theorem reaches_pastWait (env : Env) (hh : env.headersPresent) (n : Nat) :
    ∀ s, fuel env s ≤ n → Inv env s → NoPanic env s →
      ∃ rest s1, run env rest s = some s1 ∧ s1.mainPc.pastWait = true := by
  induction n with
  | zero =>
    intro s hf hI hN
    cases hp : s.mainPc.pastWait with
    | true => exact ⟨[], s, rfl, hp⟩
    | false =>
      obtain ⟨tid, s2, hstep⟩ := progress_before_wait env s hI (hN.alive hp) hp
      have := fuel_step env tid s s2 hstep
      omega
  | succ n ih =>
    intro s hf hI hN
    cases hp : s.mainPc.pastWait with
    | true => exact ⟨[], s, rfl, hp⟩
    | false =>
      obtain ⟨tid, s2, hstep⟩ := progress_before_wait env s hI (hN.alive hp) hp
      have hlt := fuel_step env tid s s2 hstep
      obtain ⟨rest, s1, hrun, hpast⟩ := ih s2 (by omega) (Inv_step env tid s s2 hI hstep)
        (NoPanic_step env tid s s2 hh hI hN hstep)
      refine ⟨tid :: rest, s1, ?_, hpast⟩
      simp only [run, hstep]
      exact hrun

/-- C4, as stated, fails: with three goroutines of which one fails and another succeeds
with a response that lacks the `Date` header, the panic of the print terminates the
process while the third goroutine, whose call succeeded with key `k0`, is still waiting
for the mutex; no thread can move any more and `k0` is not in `keyIds`. -/
theorem C4_succeeded_add_lost_when_a_print_panics :
    run exampleEnvPanic schedulePanic initState = some finalPanic ∧
    exampleEnvPanic.addFailed 1 = true ∧
    exampleEnvPanic.addFailed 0 = false ∧
    exampleEnvPanic.keyIdOf 0 = "k0" ∧
    "k0" ∉ finalPanic.keyIds ∧
    finalPanic.mainPc.pastWait = false ∧
    (∀ tid, step exampleEnvPanic tid finalPanic = none) :=
  ⟨rfl, rfl, rfl, rfl, by decide, rfl, fun _ => rfl⟩

/-- C4, amended: in every schedule in which some call failed, once `wg.Wait` has returned
`keyIds` holds exactly the identifiers of the calls that succeeded (each of them is
there, and a failed call added none) and the test object is marked failed; a schedule has
at most `11 * count + 7` steps; and when every successful response carries a value for
both `Request-Id` and `Date`, some thread can move as long as `wg.Wait` has not returned,
and the schedule extends to one in which `wg.Wait` returns with `keyIds` and the test
object as said. -/
theorem C4_failed_add_keeps_successes (env : Env) (sched : List Tid) (s : State)
    (hfail : ∃ i, i < env.count ∧ env.addFailed i = true)
    (hrun : run env sched initState = some s) :
    (s.mainPc.pastWait = true →
      s.keyIds.Perm env.succeededIds ∧
      (∀ i, i < env.count → env.addFailed i = false → env.keyIdOf i ∈ s.keyIds) ∧
      s.keyIds.length + env.failedAdds = env.count ∧
      1 ≤ env.failedAdds ∧
      s.t.failed = true) ∧
    sched.length ≤ 11 * env.count + 7 ∧
    (env.headersPresent →
      (s.mainPc.pastWait = false → ∃ tid s1, step env tid s = some s1) ∧
      (∃ rest s1, run env (sched ++ rest) initState = some s1 ∧
        s1.mainPc.pastWait = true ∧
        s1.keyIds.Perm env.succeededIds ∧
        (∀ i, i < env.count → env.addFailed i = false → env.keyIdOf i ∈ s1.keyIds) ∧
        s1.t.failed = true)) := by
  obtain ⟨i, hi, hbad⟩ := hfail
  have hsafe : ∀ (sch : List Tid) (st : State), run env sch initState = some st →
      st.mainPc.pastWait = true →
      st.keyIds.Perm env.succeededIds ∧
      (∀ i, i < env.count → env.addFailed i = false → env.keyIdOf i ∈ st.keyIds) ∧
      st.keyIds.length + env.failedAdds = env.count ∧
      1 ≤ env.failedAdds ∧
      st.t.failed = true := by
    intro sch st hr hpast
    have hI := Inv_of_run env sch st hr
    have hperm := keyIds_perm_succeededIds env sch st hr hpast
    refine ⟨hperm, ?_, ?_, ?_, ?_⟩
    · intro j hj hok
      rw [hperm.mem_iff]
      simp only [Env.succeededIds, List.mem_map, List.mem_filter, List.mem_range]
      exact ⟨j, ⟨hj, by simp [hok]⟩, rfl⟩
    · rw [hperm.length_eq]
      exact succeededIds_length env
    · have hmem : i ∈ (List.range env.count).filter env.addFailed := by
        simp [List.mem_filter, hi, hbad]
      exact List.length_pos_of_mem hmem
    · have hlen := length_of_pastWait env st hI hpast
      have hlt : i < st.gs.length := by omega
      have hget : st.gs[i]? = some st.gs[i] := List.getElem?_eq_getElem hlt
      have hnp := hI.barrier hpast st.gs[i] (List.getElem_mem hlt)
      refine hI.failedFlag i _ hget hbad ?_ ?_
      · intro e
        rw [e] at hnp
        cases hnp
      · intro e
        rw [e] at hnp
        cases hnp
  have hI := Inv_of_run env sched s hrun
  refine ⟨hsafe sched s hrun, ?_, ?_⟩
  · have h := run_length_add_fuel env sched initState s hrun
    rw [fuel_initState] at h
    omega
  · intro hh
    have hN := NoPanic_run env sched initState s hh (Inv_initState env)
      (NoPanic_initState env) hrun
    refine ⟨fun hp => progress_before_wait env s hI (hN.alive hp) hp, ?_⟩
    obtain ⟨rest, s1, hr1, hpast⟩ := reaches_pastWait env hh (fuel env s) s (Nat.le_refl _) hI hN
    have hfull : run env (sched ++ rest) initState = some s1 := by
      rw [run_append env sched rest initState s hrun]
      exact hr1
    obtain ⟨h1, h2, _, _, h5⟩ := hsafe (sched ++ rest) s1 hfull hpast
    exact ⟨rest, s1, hfull, hpast, h1, h2, h5⟩

/-- C4 (amended) at a concrete input: two goroutines, the call of the first fails; the
full schedule ends past `wg.Wait` with the key of the second, and its first ten steps
extend to such a run. -/
theorem C4_failed_add_keeps_successes_witness :
    run (exampleEnv true) scheduleOneFails initState = some finalOneFails ∧
    (exampleEnv true).addFailed 0 = true ∧
    finalOneFails.keyIds.Perm ["k1"] ∧ "k1" ∈ finalOneFails.keyIds ∧
    finalOneFails.t.failed = true ∧
    scheduleOneFails.length ≤ 11 * 2 + 7 ∧
    (∃ rest s1, run (exampleEnv true) (scheduleOneFails.take 10 ++ rest) initState = some s1 ∧
      s1.mainPc.pastWait = true ∧ s1.keyIds.Perm ["k1"] ∧
      (∀ i, i < 2 → (exampleEnv true).addFailed i = false →
        (exampleEnv true).keyIdOf i ∈ s1.keyIds) ∧
      s1.t.failed = true) :=
  ⟨rfl, rfl,
   ((C4_failed_add_keeps_successes (exampleEnv true) scheduleOneFails finalOneFails
      ⟨0, by decide, rfl⟩ rfl).1 rfl).1,
   ((C4_failed_add_keeps_successes (exampleEnv true) scheduleOneFails finalOneFails
      ⟨0, by decide, rfl⟩ rfl).1 rfl).2.1 1 (by decide) rfl,
   ((C4_failed_add_keeps_successes (exampleEnv true) scheduleOneFails finalOneFails
      ⟨0, by decide, rfl⟩ rfl).1 rfl).2.2.2.2,
   (C4_failed_add_keeps_successes (exampleEnv true) scheduleOneFails finalOneFails
      ⟨0, by decide, rfl⟩ rfl).2.1,
   ((C4_failed_add_keeps_successes (exampleEnv true) (scheduleOneFails.take 10)
      { mainPc := MainPc.wait, gs := [GPc.exited, GPc.lock], wg := 1,
        mutex := none, keyIds := [],
        t := { failed := true,
               reports := [Report.noError (GoError.plain "transport")
                 "error adding password"] },
        events := [Event.addReturned 1, Event.addReturned 0], crashed := none }
      ⟨0, by decide, rfl⟩ rfl).2.2 (by decide)).2⟩

/-! ## The barrier and the mutex -/

theorem stepGo_keyIds (env : Env) (i : Nat) (s s1 : State) (hs : stepGo env i s = some s1) :
    s1.keyIds = s.keyIds ∨
      ∃ old, s.gs[i]? = some (GPc.writeKeyIds old) ∧ s1.keyIds = old ++ [env.keyIdOf i] := by
  unfold stepGo at hs
  split at hs
  case h_6 old hpc =>
    simp only [Option.some.injEq] at hs
    subst hs
    exact Or.inr ⟨old, hpc, rfl⟩
  all_goals
    left
    repeat' split at hs
    all_goals cases hs <;> rfl

theorem stepMain_keyIds (env : Env) (s s1 : State) (hs : stepMain env s = some s1) :
    s1.keyIds = s.keyIds := by
  unfold stepMain at hs
  repeat' split at hs
  all_goals cases hs <;> rfl

theorem stepGo_done (env : Env) (i : Nat) (s s1 : State) (pc pc1 : GPc)
    (hs : stepGo env i s = some s1) (hpc : s.gs[i]? = some pc) (hpc1 : s1.gs[i]? = some pc1)
    (hp : pc.pendingDone = true) (hp1 : pc1.pendingDone = false) :
    (∃ p, pc = GPc.deferDone p) ∧ s1.wg + 1 = s.wg := by
  have hi := lt_length_of_getElem? _ _ _ hpc
  unfold stepGo at hs
  rw [hpc] at hs
  cases pc with
  | deferDone p =>
    refine ⟨⟨p, rfl⟩, ?_⟩
    simp only at hs
    split at hs
    · simp only [Option.some.injEq] at hs
      subst hs
      simp only [hpc, Option.some.injEq] at hpc1
      subst hpc1
      cases hp1
    · split at hs
      all_goals
        simp only [Option.some.injEq] at hs
        subst hs
        simp only
        omega
  | crash p => cases hp
  | exited => cases hp
  | _ =>
    exfalso
    simp only at hs
    repeat' split at hs
    all_goals
      cases hs <;>
      first
        | (simp only [List.getElem?_set, hi, if_true, Option.some.injEq] at hpc1
           subst hpc1
           cases hp1)
        | (rw [hpc] at hpc1
           cases hpc1
           cases hp1)

/-- C6: in every schedule, when the test goroutine is past `wg.Wait` (in particular when
it issues the second `GetApplication`) all `count` goroutines have been spawned and each
has run its deferred `wg.Done`; `wg.Wait` itself lets the test goroutine through only in
such a state; and a goroutine gets there only by the step that runs `wg.Done`, whether
its call succeeded or failed. -/
theorem C6_barrier_before_verification (env : Env) (sched : List Tid) (s : State)
    (hrun : run env sched initState = some s) :
    (s.mainPc.pastWait = true →
      s.gs.length = env.count ∧ ∀ pc ∈ s.gs, pc.pendingDone = false) ∧
    (∀ s1, s.mainPc = MainPc.wait → step env Tid.main s = some s1 →
      s.gs.length = env.count ∧ ∀ pc ∈ s.gs, pc.pendingDone = false) ∧
    (∀ i s1 pc pc1, step env (Tid.go i) s = some s1 → s.gs[i]? = some pc →
      s1.gs[i]? = some pc1 → pc.pendingDone = true → pc1.pendingDone = false →
      (∃ p, pc = GPc.deferDone p) ∧ s1.wg + 1 = s.wg) := by
  have hI := Inv_of_run env sched s hrun
  refine ⟨?_, ?_, ?_⟩
  · intro hpast
    exact ⟨length_of_pastWait env s hI hpast, hI.barrier hpast⟩
  · intro s1 hpc hstep
    have hI1 := Inv_step env Tid.main s s1 hI hstep
    have hs1 : s1 = { s with mainPc := MainPc.sleep } := by
      unfold step at hstep
      split at hstep
      · cases hstep
      · simp only [stepMain, hpc] at hstep
        split at hstep
        · exact (Option.some.inj hstep).symm
        · cases hstep
    have hpast : s1.mainPc.pastWait = true := by rw [hs1]; rfl
    have h1 := length_of_pastWait env s1 hI1 hpast
    have h2 := hI1.barrier hpast
    rw [hs1] at h1 h2
    exact ⟨h1, h2⟩
  · intro i s1 pc pc1 hstep hpc hpc1 hp hp1
    unfold step at hstep
    split at hstep
    · cases hstep
    · exact stepGo_done env i s s1 pc pc1 hstep hpc hpc1 hp hp1

/-- C6 at a concrete input: the state in which `wg.Wait` has just returned. -/
theorem C6_barrier_before_verification_witness :
    run (exampleEnv true) (scheduleOneFails.take 17) initState = some afterWaitOneFails ∧
    afterWaitOneFails.mainPc.pastWait = true ∧
    afterWaitOneFails.gs.length = (exampleEnv true).count ∧
    ∀ pc ∈ afterWaitOneFails.gs, pc.pendingDone = false :=
  ⟨rfl, rfl,
   (C6_barrier_before_verification (exampleEnv true) (scheduleOneFails.take 17)
      afterWaitOneFails rfl).1 rfl⟩

/-- C7: in every schedule, a goroutine at a program point that reads or writes `keyIds`
is the one that locked the mutex; no two goroutines are between `Lock` and `Unlock` at
the same time; the only steps that change `keyIds` are taken by the goroutine that holds
the mutex and extend the current slice by that goroutine's identifier; and `keyIds` is a
permutation of the identifiers of the goroutines that have executed their store, so none
is lost. -/
theorem C7_keyIds_written_under_the_mutex (env : Env) (sched : List Tid) (s : State)
    (hrun : run env sched initState = some s) :
    (∀ (j : Nat) (pc : GPc), s.gs[j]? = some pc → pc.accessesKeyIds = true →
      s.mutex = some j) ∧
    (∀ (j k : Nat) (pcj pck : GPc), s.gs[j]? = some pcj → s.gs[k]? = some pck →
      pcj.critical = true → pck.critical = true → j = k) ∧
    (∀ tid s1, step env tid s = some s1 → s1.keyIds ≠ s.keyIds →
      ∃ j, tid = Tid.go j ∧ s.mutex = some j ∧
        s1.keyIds = s.keyIds ++ [env.keyIdOf j]) ∧
    s.keyIds.Perm (appendedIdsFrom env 0 s.gs) := by
  have hI := Inv_of_run env sched s hrun
  refine ⟨?_, ?_, ?_, hI.appended⟩
  · intro j pc hj hacc
    refine (hI.mutexHolder j pc hj).1 ?_
    cases pc <;> simp [GPc.accessesKeyIds] at hacc <;> rfl
  · intro j k pcj pck hj hk hcj hck
    have h1 := (hI.mutexHolder j pcj hj).1 hcj
    have h2 := (hI.mutexHolder k pck hk).1 hck
    rw [h1] at h2
    exact Option.some.inj h2
  · intro tid s1 hstep hne
    unfold step at hstep
    split at hstep
    · cases hstep
    · cases tid with
      | main => exact absurd (stepMain_keyIds env s s1 hstep) hne
      | go j =>
        rcases stepGo_keyIds env j s s1 hstep with h | ⟨old, hpc, hk⟩
        · exact absurd h hne
        · refine ⟨j, rfl, (hI.mutexHolder j _ hpc).1 rfl, ?_⟩
          rw [hk, hI.snapshot j old hpc]

/-- C7 at a concrete input: goroutine 1 is about to store and holds the mutex, goroutine 0
is blocked in `mutex.Lock`. -/
theorem C7_keyIds_written_under_the_mutex_witness :
    run (exampleEnv false) (scheduleAllOk.take 11) initState = some midAllOk ∧
    midAllOk.gs[1]? = some (GPc.writeKeyIds []) ∧
    midAllOk.mutex = some 1 ∧
    step (exampleEnv false) (Tid.go 0) midAllOk = none :=
  ⟨rfl, rfl,
   (C7_keyIds_written_under_the_mutex (exampleEnv false) (scheduleAllOk.take 11) midAllOk
      rfl).1 1 (GPc.writeKeyIds []) rfl rfl,
   rfl⟩

end GraphReliability
